import Mathlib

/-!
Verification of the DSSAT CERES-Wheat calibration-figure repository
(`Enhanced-Cultivar-Calibration-for-DSSAT-CERES-Wheat`).

The Python sources under `src/` parse semi-structured DSSAT output files
(`OVERVIEW.OUT`, `PlantGro.OUT`, `.WHT` measurement files) into tabular
records, compute fit metrics grouped by variable/treatment/calibration, pivot
and order metric tables, and save static figures.  This file gives a shallow
embedding of that data model and its operations and proves the specified
properties about them.

Strings are modelled as `List Char` (`Str` below) so that every operation is
structurally recursive and evaluates inside the kernel; the helper functions
mirror the semantics of the Python string methods actually used by the code
(`strip`, `split`, `split(sep)`, `rsplit(maxsplit=1)`, `startswith`,
substring containment).  Machine floats of the Python code are modelled as
`ℚ`; `NaN` cells of pandas frames are modelled as `Option` values; raised
exceptions are modelled with `Option`/`Except` results.
-/

/-- Python strings, modelled as lists of characters so that all operations
compute by structural recursion. -/
def Str : Type := List Char

deriving instance DecidableEq for Str

instance : Append Str := ⟨List.append⟩

instance : Membership Char Str := ⟨fun s c => List.Mem c s⟩

/-- Convert a Lean string literal to the `Str` model. -/
def str (s : String) : Str := s.toList

/-- Python `s.startswith(p)`. -/
def pyStartsWith (s p : Str) : Bool := List.isPrefixOf p s

/-- Python `p in s` (substring containment). -/
def containsSub (s p : Str) : Bool :=
  match s with
  | [] => List.isPrefixOf p []
  | _ :: rest => List.isPrefixOf p s || containsSub rest p

/-- Python `s.strip()`: remove leading and trailing whitespace. -/
def pyStrip (s : Str) : Str :=
  ((s.dropWhile Char.isWhitespace).reverse.dropWhile Char.isWhitespace).reverse

/-- Python `s.split()` (no separator): whitespace-delimited tokens, empty
tokens dropped. -/
def wsTokens : Str → List Str
  | [] => []
  | c :: rest =>
    if c.isWhitespace then wsTokens rest
    else
      match wsTokens rest with
      | [] => [[c]]
      | t :: ts =>
        match rest with
        | [] => [[c]]
        | d :: _ => if d.isWhitespace then [c] :: t :: ts else (c :: t) :: ts

/-- Worker for `splitOnSub`: `skip` counts separator characters still to be
consumed after a match (Python `str.split(sep)` consumes non-overlapping
occurrences left to right). -/
def splitGo (p : Str) : Str → Str → Nat → List Str
  | [], cur, _ => [cur.reverse]
  | c :: rest, cur, skip =>
    match skip with
    | k + 1 => splitGo p rest cur k
    | 0 =>
      if List.isPrefixOf p (c :: rest) then
        cur.reverse :: splitGo p rest [] (p.length - 1)
      else
        splitGo p rest (c :: cur) 0

/-- Python `s.split(sep)` for a non-empty separator `sep`. -/
def splitOnSub (s p : Str) : List Str :=
  if p = [] then [s] else splitGo p s [] 0

/-- Python `s.rsplit(maxsplit=1)[0]` for a stripped non-empty `s`: the text
before the last whitespace-separated token (the whole of `s` when it holds a
single token). -/
def removeLastToken (s : Str) : Str :=
  let r := s.reverse.dropWhile (fun c => !c.isWhitespace)
  if r = [] then s else (r.dropWhile Char.isWhitespace).reverse

/-- Python `', '.join(xs)` (and other joiners). -/
def joinWith (sep : Str) (xs : List Str) : Str := List.intercalate sep xs

/-- Value of a decimal digit character. -/
def digitVal (c : Char) : Option Nat :=
  if c.isDigit then some (c.toNat - 48) else none

/-- Parse a non-empty all-digit character list to a natural number. -/
def parseDigits : Str → Option Nat
  | [] => none
  | cs => parseDigitsAux cs 0
where
  parseDigitsAux : Str → Nat → Option Nat
    | [], acc => some acc
    | c :: rest, acc =>
      match digitVal c with
      | none => none
      | some d => parseDigitsAux rest (10 * acc + d)

/-- Unsigned magnitude for `pyToNumeric`: `digits`, `digits.digits`,
`digits.` or `.digits`. -/
def pyToNumericMag (s : Str) : Option ℚ :=
  match splitOnSub s (str ".") with
  | [intPart] =>
    (parseDigits intPart).map (fun n => mkRat n 1)
  | [intPart, fracPart] =>
    if intPart = [] && fracPart = [] then none
    else
      match intPart, fracPart with
      | [], f =>
        (parseDigits f).map (fun n => mkRat n (10 ^ f.length))
      | i, [] =>
        (parseDigits i).map (fun n => mkRat n 1)
      | i, f =>
        match parseDigits i, parseDigits f with
        | some a, some b => some (mkRat (a * 10 ^ f.length + b) (10 ^ f.length))
        | _, _ => none
  | _ => none

/-- Sign handling for `pyToNumeric`. -/
def pyToNumericSigned : Str → Option ℚ
  | [] => none
  | c :: rest =>
    if c = '-' then (pyToNumericMag rest).map (fun q => -q)
    else if c = '+' then pyToNumericMag rest
    else pyToNumericMag (c :: rest)

/-- `pandas.to_numeric(errors='coerce')` on one cell, for the decimal
number shapes that occur in DSSAT tables: optional sign, integer digits,
optional fractional digits.  Anything else (in particular the empty string)
coerces to missing (`none`).  The rational is built with `mkRat` so the
definition evaluates in the kernel. -/
def pyToNumeric (s : Str) : Option ℚ :=
  pyToNumericSigned (pyStrip s)

/-- Worker for `dedupFirst`, carrying the set of elements already seen. -/
def dedupFirstAux {α : Type} [DecidableEq α] : List α → List α → List α
  | [], _ => []
  | a :: l, seen =>
    if a ∈ seen then dedupFirstAux l seen else a :: dedupFirstAux l (a :: seen)

/-- First-occurrence deduplication (order of first appearance kept), as
`pandas.Series.unique` and the key list of a `groupby` do. -/
def dedupFirst {α : Type} [DecidableEq α] (l : List α) : List α :=
  dedupFirstAux l []

/-- Insertion into a sorted list (used by `insertionSort`). -/
def insertLe {α : Type} (le : α → α → Bool) (a : α) : List α → List α
  | [] => [a]
  | b :: l => if le a b then a :: b :: l else b :: insertLe le a l

/-- Structural insertion sort (kernel-computable stand-in for the sorting
done by `pandas.Series.sort_values`). -/
def insertionSort {α : Type} (le : α → α → Bool) : List α → List α
  | [] => []
  | a :: l => insertLe le a (insertionSort le l)

/-- Lexicographic comparison of character lists (the order `pandas` uses on
string labels). -/
def strLe : Str → Str → Bool
  | [], _ => true
  | _ :: _, [] => false
  | a :: as, b :: bs => if a < b then true else if b < a then false else strLe as bs

/-!
## `wht_filedata_to_dataframe` (src/src/utils.py, lines 414-458)

Parses a DSSAT-style `.WHT` measurement file: the column header is the first
line starting with `@`; the data lines are the non-blank lines not starting
with `*`, `!` or `@`; every data line must split into exactly as many tokens
as the header has columns.
-/

/-- The two `ValueError`s `wht_filedata_to_dataframe` can raise. -/
inductive WhtError : Type
  | noHeader : WhtError
  | inconsistentRow (line : Str) : WhtError
deriving DecidableEq

/-- First line starting with `@` (the header line of a `.WHT` file). -/
def whtHeaderLine (lines : List Str) : Option Str :=
  lines.find? (fun l => pyStartsWith l (str "@"))

/-- Column names of a `.WHT` file: tokens of the stripped header line with
its leading `@` removed. -/
def whtColumns (header : Str) : List Str :=
  wsTokens ((pyStrip header).drop 1)

/-- The stripped data lines of a `.WHT` file: non-blank lines not starting
with `*`, `!` or `@`. -/
def whtDataLines (lines : List Str) : List Str :=
  (lines.filter (fun l =>
    !(pyStrip l).isEmpty && !pyStartsWith l (str "*") &&
    !pyStartsWith l (str "!") && !pyStartsWith l (str "@"))).map pyStrip

/-- Worker checking every data line against the column count; stops at the
first inconsistent row, as the Python loop does. -/
def whtParseRows (ncols : Nat) : List Str → Except WhtError (List (List Str))
  | [] => .ok []
  | l :: rest =>
    let values := wsTokens l
    if values.length = ncols then
      (whtParseRows ncols rest).map (fun rs => values :: rs)
    else
      .error (.inconsistentRow l)

/-- `wht_filedata_to_dataframe` from `src/src/utils.py`: returns the column
names and the tokenized data rows, or the `ValueError` the Python code
raises. -/
def wht_filedata_to_dataframe (lines : List Str) :
    Except WhtError (List Str × List (List Str)) :=
  match whtHeaderLine lines with
  | none => .error .noHeader
  | some header =>
    let columns := whtColumns header
    (whtParseRows columns.length (whtDataLines lines)).map (fun rows => (columns, rows))

/-!
## `validate_file_path` (src/src/utils.py, lines 6-16)

The Python function checks a dynamically-typed argument: any falsy value or
non-string raises `ValueError`; a non-empty string that is not an existing
file raises `FileNotFoundError`; otherwise the argument is returned
unchanged.  The file system is modelled as a predicate on paths; the error
messages of the Python exceptions are elided, only their types are kept.
-/

/-- The Python values relevant to `validate_file_path`: strings and a few
representative non-string values. -/
inductive PyVal : Type
  | pyStr (s : Str) : PyVal
  | pyNone : PyVal
  | pyInt (n : Int) : PyVal
deriving DecidableEq

/-- Python truthiness of a `PyVal`. -/
def truthy : PyVal → Bool
  | .pyStr s => !s.isEmpty
  | .pyNone => false
  | .pyInt n => n != 0

/-- Python `isinstance(v, str)`. -/
def isStrVal : PyVal → Bool
  | .pyStr _ => true
  | _ => false

/-- The exception types `validate_file_path` can raise. -/
inductive PathError : Type
  | valueError : PathError
  | fileNotFoundError : PathError
deriving DecidableEq

/-- `validate_file_path` from `src/src/utils.py`; `isfile` models
`os.path.isfile`. -/
def validate_file_path (isfile : Str → Bool) (v : PyVal) : Except PathError PyVal :=
  if !truthy v || !isStrVal v then .error .valueError
  else
    match v with
    | .pyStr s => if !isfile s then .error .fileNotFoundError else .ok (.pyStr s)
    | w => .ok w

/-!
## Figure-saving effects (src/src/heatmap_plot.py, src/src/barplot_parameters.py)

Both figure workflows end in exactly one `plt.savefig` call and write nothing
else to disk (the summary statistics collected by `create_parameter_barplot`
are never saved).  The file-writing effect of each function is modelled as
the list of paths it writes.
-/

/-- `os.path.join dir name` for a relative `name`. -/
def pathJoin (dir name : Str) : Str := dir ++ str "/" ++ name

/-- `FILE_FORMAT` from `src/src/plot_style/heatmap.py` and
`src/src/plot_style/barplot.py`. -/
def FILE_FORMAT : Str := str "png"

/-- The files written by `create_heatmap_plot` (src/src/heatmap_plot.py,
lines 149-159): the single saved image
`{figure_name}_heatmap_{treatment}.{FILE_FORMAT}` in `output_dir`. -/
def create_heatmap_plot_writes (output_dir figure_name treatment : Str) : List Str :=
  [pathJoin output_dir (figure_name ++ str "_heatmap_" ++ treatment ++ str "." ++ FILE_FORMAT)]

/-- The files written by `create_parameter_barplot`
(src/src/barplot_parameters.py, lines 196-203): the single saved image
`Figure-3_parameters_barplot.{FILE_FORMAT}` in `BASE_OUTPUT`. -/
def create_parameter_barplot_writes (base_output : Str) : List Str :=
  [pathJoin base_output (str "Figure-3_parameters_barplot." ++ FILE_FORMAT)]

/-!
## `simulations_lines` (src/src/utils.py, lines 264-318; identical earlier
definition at lines 19-73)

Scans an `OVERVIEW.OUT` / `PlantGro.OUT` file for `*DSSAT` block markers and
`TREATMENT` lines and maps each treatment name to the line range of its
block.
-/

/-- Indices of the lines containing `*DSSAT` (`'*DSSAT' in line`). -/
def dssatLinesOf (lines : List Str) : List Nat :=
  ((lines.enum).filter (fun p => containsSub p.2 (str "*DSSAT"))).map Prod.fst

/-- Indices and stripped contents of the lines whose stripped text starts
with `TREATMENT`. -/
def runLinesOf (lines : List Str) : List (Nat × Str) :=
  (lines.enum).filterMap (fun p =>
    if pyStartsWith (pyStrip p.2) (str "TREATMENT") then some (p.1, pyStrip p.2) else none)

/-- The treatment name the code extracts from a stripped `TREATMENT` line:
`line.split(':')[1].strip().rsplit(maxsplit=1)[0]`.  `none` models the
`IndexError` Python raises when the line has no colon or nothing after
it. -/
def treatmentKey (l : Str) : Option Str :=
  match splitOnSub l (str ":") with
  | _ :: p :: _ =>
    let t := pyStrip p
    if t = [] then none else some (removeLastToken t)
  | _ => none

/-- Python dict assignment `d[k] = v` on an association list: overwrite the
value at an existing key in place, or append a new binding. -/
def dictInsert {β : Type} : List (Str × β) → Str → β → List (Str × β)
  | [], k, v => [(k, v)]
  | (k0, v0) :: rest, k, v =>
    if k0 = k then (k0, v) :: rest else (k0, v0) :: dictInsert rest k v

/-- End line of a `*DSSAT` block: the next `*DSSAT` index minus one, or
`len(lines)` for the final block (the code first sets `len(lines) - 1` and
immediately overwrites it with `len(lines)`). -/
def blockEnd (rest : List Nat) (n : Nat) : Nat :=
  match rest with
  | next :: _ => next - 1
  | [] => n

/-- Block loop of `simulations_lines`: the first `TREATMENT` line inside
each block provides the key. -/
def slLoop (runs : List (Nat × Str)) (n : Nat) :
    List Nat → List (Str × Nat × Nat) → Option (List (Str × Nat × Nat))
  | [], acc => some acc
  | s :: rest, acc =>
    match runs.find? (fun r => s ≤ r.1 && r.1 ≤ blockEnd rest n) with
    | none => slLoop runs n rest acc
    | some (_, l) =>
      match treatmentKey l with
      | none => none
      | some k =>
        if k = [] then slLoop runs n rest acc
        else slLoop runs n rest (dictInsert acc k (s, blockEnd rest n))

/-- `simulations_lines` from `src/src/utils.py`: the dictionary mapping each
treatment name to the `(start, end)` line range of its `*DSSAT` block
(`none` models an uncaught `IndexError` on a malformed `TREATMENT`
line). -/
def simulations_lines (lines : List Str) : Option (List (Str × Nat × Nat)) :=
  slLoop (runLinesOf lines) lines.length (dssatLinesOf lines) []

/-- Everything after the first colon of `l` (the claim's description of the
treatment-name source text). -/
def afterFirstColon (l : Str) : Str :=
  joinWith (str ":") (splitOnSub l (str ":")).tail

/-- The treatment name as the specification words it: the text of the
`TREATMENT` line after the colon, with the trailing run-number token
removed. -/
def specTreatmentName (l : Str) : Str :=
  removeLastToken (pyStrip (afterFirstColon l))

/-- Specification-side block loop, mirroring the wording of the claim: each
`*DSSAT` block spans from its `*DSSAT` line to the line before the next one
(`len(lines)`, the end of the file, for the final block); a block containing
a `TREATMENT` line contributes its first such line's treatment name; a block
without one contributes no entry. -/
def slLoopSpec (runs : List (Nat × Str)) (n : Nat) :
    List Nat → List (Str × Nat × Nat) → List (Str × Nat × Nat)
  | [], acc => acc
  | s :: rest, acc =>
    match runs.find? (fun r => s ≤ r.1 && r.1 ≤ blockEnd rest n) with
    | none => slLoopSpec runs n rest acc
    | some (_, l) =>
      slLoopSpec runs n rest (dictInsert acc (specTreatmentName l) (s, blockEnd rest n))

/-- The mapping described by the specification sentence for
`simulations_lines`. -/
def simulations_lines_spec (lines : List Str) : List (Str × Nat × Nat) :=
  slLoopSpec (runLinesOf lines) lines.length (dssatLinesOf lines) []

/-- Well-formedness of a (stripped) `TREATMENT` line: exactly one colon,
non-blank text after it, and a non-empty treatment name in front of the
trailing run-number token.  All `TREATMENT` lines DSSAT writes have this
shape. -/
def treatmentLineWF (l : Str) : Prop :=
  (splitOnSub l (str ":")).length = 2 ∧
  pyStrip ((splitOnSub l (str ":")).getD 1 []) ≠ [] ∧
  removeLastToken (pyStrip ((splitOnSub l (str ":")).getD 1 [])) ≠ []

instance (l : Str) : Decidable (treatmentLineWF l) := by
  unfold treatmentLineWF; infer_instance

/-- A concrete two-block `OVERVIEW.OUT` skeleton used by witnesses. -/
def sampleOverviewLines : List Str :=
  [str "*DSSAT-CSM CSCER048 - WHEAT",
   str " TREATMENT  1 : WW-23_GENO1 1",
   str " other line",
   str "*DSSAT-CSM CSCER048 - WHEAT",
   str " TREATMENT  2 : DR-22_GENO2 2"]

/-!
## `extract_simulation_data` (src/src/utils.py, lines 76-174)

For each treatment block found by `simulations_lines`, scans the block's
line range for the `EXPERIMENT` line, the `CROP ... CULTIVAR :` line and the
`@` table header, and turns every table row into a record tagged with the
block's treatment, cultivar and experiment.  The Python `cultivar` variable
is *not* reset between blocks (it leaks across iterations), which the scan
state below reproduces; referencing it before any `CROP` line was seen is a
`NameError`, modelled as `none`.
-/

/-- One row of the frame built by `extract_simulation_data`, before the
numeric conversion of the value columns. -/
structure RawRecord where
  treatment : Str
  cultivar : Str
  varName : Str
  valueSim : Str
  valueMeas : Str
  experiment : Option Str
  position : Nat
deriving DecidableEq

/-- `'' if value.startswith('-99') else value` applied to both value
columns of a table row. -/
def sentinel99 (s : Str) : Str := if pyStartsWith s (str "-99") then [] else s

/-- Parse the data lines of one `@` table: the last two whitespace tokens
are the simulated and measured values, the rest joined by single spaces is
the variable name; `none` models the `IndexError` on a row with fewer than
two tokens and the `NameError` when no cultivar has been assigned yet. -/
def parseRows (treatment : Str) (cultivar : Option Str) (experiment : Option Str) :
    Nat → List Str → Option (List RawRecord)
  | _, [] => some []
  | pos, l :: rest =>
    match (wsTokens (pyStrip l)).reverse with
    | meas :: sim :: restRev =>
      match cultivar with
      | none => none
      | some cv =>
        (parseRows treatment cultivar experiment (pos + 1) rest).map (fun rs =>
          { treatment := treatment, cultivar := cv,
            varName := joinWith (str " ") restRev.reverse,
            valueSim := sentinel99 sim, valueMeas := sentinel99 meas,
            experiment := experiment, position := pos } :: rs)
    | _ => none

/-- `line.split(':')[1].strip()`, the experiment description parse; `none`
models the `IndexError` on a line without a colon. -/
def afterColonCode (l : Str) : Option Str :=
  match splitOnSub l (str ":") with
  | _ :: p :: _ => some (pyStrip p)
  | _ => none

/-- `line.split('CULTIVAR :')[1].split('ECOTYPE')[0].strip()`: the text
between `CULTIVAR :` and `ECOTYPE`. -/
def cultivarOf (l : Str) : Str :=
  match splitOnSub l (str "CULTIVAR :") with
  | _ :: p :: _ => pyStrip ((splitOnSub p (str "ECOTYPE")).headD [])
  | _ => []

/-- The data lines of the `@` table starting below line `i`: the following
lines up to the first blank line or line starting with `*`. -/
def tableLinesAt (lines : List Str) (i : Nat) : List Str :=
  (lines.drop (i + 1)).takeWhile
    (fun dl => !(pyStrip dl).isEmpty && !pyStartsWith dl (str "*"))

/-- State of the per-block scan of `extract_simulation_data`:
`expInfo`/`cultivar` mirror the Python locals `experiment_info`/`cultivar`,
`culData` the per-block accumulator `cultivar_data`, and `emitted` this
block's contributions to `all_data`. -/
structure ScanState where
  expInfo : Option Str
  cultivar : Option Str
  culData : List RawRecord
  emitted : List RawRecord
deriving DecidableEq

/-- One iteration of the block scan (`for i in range(start_line, end_line)`):
checks the stripped line for `EXPERIMENT`, `CROP ... CULTIVAR :` and `@`
markers in the order the Python code does. -/
def scanStep (lines : List Str) (treatment : Str) (i : Nat) (st : ScanState) :
    Option ScanState :=
  let l := pyStrip (lines.getD i [])
  let st1? : Option ScanState :=
    if pyStartsWith l (str "EXPERIMENT") then
      match afterColonCode l with
      | some v => some { st with expInfo := some v }
      | none => none
    else some st
  match st1? with
  | none => none
  | some st1 =>
    let st2 : ScanState :=
      if pyStartsWith l (str "CROP") && containsSub l (str "CULTIVAR :") then
        { st1 with cultivar := some (cultivarOf l) }
      else st1
    if pyStartsWith l (str "@") then
      match parseRows treatment st2.cultivar st2.expInfo 1 (tableLinesAt lines i) with
      | none => none
      | some rows =>
        some { st2 with culData := st2.culData ++ rows,
                        emitted := st2.emitted ++ st2.culData ++ rows }
    else some st2

/-- Scan `count` lines of a block starting from line `i`. -/
def scanBlockAux (lines : List Str) (treatment : Str) :
    Nat → Nat → ScanState → Option ScanState
  | _, 0, st => some st
  | i, count + 1, st =>
    match scanStep lines treatment i st with
    | none => none
    | some st2 => scanBlockAux lines treatment (i + 1) count st2

/-- The whole scan of one treatment block over `range(start_line, end_line)`;
`cultivar0` is the (possibly stale) cultivar value left by earlier
blocks. -/
def scanBlock (lines : List Str) (treatment : Str) (s e : Nat)
    (cultivar0 : Option Str) : Option ScanState :=
  scanBlockAux lines treatment s (e - s)
    { expInfo := none, cultivar := cultivar0, culData := [], emitted := [] }

/-- The block iteration of `extract_simulation_data` over the dictionary of
`simulations_lines`, threading the leaky `cultivar` variable. -/
def extractRawAux (lines : List Str) :
    List (Str × Nat × Nat) → Option Str → Option (List RawRecord)
  | [], _ => some []
  | (t, s, e) :: rest, cult =>
    match scanBlock lines t s e cult with
    | none => none
    | some st => (extractRawAux lines rest st.cultivar).map (fun more => st.emitted ++ more)

/-- `extract_simulation_data` up to (but not including) the `'--------'`
row filter and the numeric conversion of the value columns. -/
def extract_simulation_data_raw (lines : List Str) : Option (List RawRecord) :=
  match simulations_lines lines with
  | none => none
  | some d => extractRawAux lines d none

/-- A concrete one-block `OVERVIEW.OUT` with a cultivar line, an experiment
line and an `@` table, used by witnesses. -/
def sampleBlockLines : List Str :=
  [str "*DSSAT-CSM CSCER048 - WHEAT",
   str " TREATMENT  1 : WW-23_GENO1 1",
   str " CROP : WHEAT CULTIVAR : GENO1 ECOTYPE : E1",
   str " EXPERIMENT : SWSW2301 WH N RESPONSE",
   str "",
   str "@ VARIABLE SIMULATED MEASURED",
   str " Anthesis DAP 100 98",
   str " Grain yield 5000 -99"]

/-!
## Metric engine (`metrics.py`) and the driver scripts
(src/scripts/Figure-5_time-series_NRMSE.py lines 52-64,
src/scripts/Figure-B.2_ecotype-calibration_heatmap.py lines 60-70)

The repository's `metrics.py` module (imported by both driver scripts as
`from metrics import compute_grouped_nrmse, calculate_mpe, calculate_r2_1to1,
calculate_gain`) is not under `src/`; the metric functions below are
modelled from the spec.  The group-column lists and the four calls are
taken from the driver scripts, which are under `src/`.
-/

/-- One row of the overview DataFrame as the metric engine consumes it. -/
structure OverviewRow where
  variableName : Str
  calibrationMethod : Str
  shortLabel : Str
  longLabel : Str
  treatment : Str
  valueSimulated : ℚ
  valueMeasured : ℚ
deriving DecidableEq

/-- Column access by column name, for the `group_cols` string lists the
driver scripts pass. -/
def colValue (r : OverviewRow) (c : Str) : Str :=
  if c = str "variable" then r.variableName
  else if c = str "calibration_method" then r.calibrationMethod
  else if c = str "short_label" then r.shortLabel
  else if c = str "long_label" then r.longLabel
  else if c = str "treatment" then r.treatment
  else []

/-- The grouping key of a row under a list of group columns. -/
def groupKey (cols : List Str) (r : OverviewRow) : List Str := cols.map (colValue r)

/-- Arithmetic mean of a list of rationals (0 for the empty list). -/
def meanQ (l : List ℚ) : ℚ := l.sum / l.length

/-- Modelled from the spec: `metrics.py` is absent from `src/`; the spec
says the metric engine "computes NRMSE ... to score simulated vs. measured
values".  NRMSE is RMSE normalized by the mean of the measured values
(`norm_method='mean'`); to keep the development computable (no real square
root) the table stores the *square* of the NRMSE, which carries the same
grouping structure. -/
def nrmseSqOf (g : List OverviewRow) : ℚ :=
  meanQ (g.map (fun r => (r.valueSimulated - r.valueMeasured) ^ 2)) /
    (meanQ (g.map (fun r => r.valueMeasured))) ^ 2

/-- Modelled from the spec: mean percentage error (bias metric) of
simulated against measured values. -/
def mpeOf (g : List OverviewRow) : ℚ :=
  meanQ (g.map (fun r => (r.valueSimulated - r.valueMeasured) / r.valueMeasured * 100))

/-- Modelled from the spec: R² to the 1:1 line, `1 - SS_res/SS_tot` with
residuals taken against the identity line. -/
def r2_1to1Of (g : List OverviewRow) : ℚ :=
  1 - (g.map (fun r => (r.valueMeasured - r.valueSimulated) ^ 2)).sum /
      (g.map (fun r => (r.valueMeasured - meanQ (g.map (fun x => x.valueMeasured))) ^ 2)).sum

/-- Modelled from the spec: regression gain, the slope of the simulated
versus measured linear fit (ideal 1.0). -/
def gainOf (g : List OverviewRow) : ℚ :=
  (g.map (fun r => (r.valueMeasured - meanQ (g.map (fun x => x.valueMeasured))) *
                   (r.valueSimulated - meanQ (g.map (fun x => x.valueSimulated))))).sum /
  (g.map (fun r => (r.valueMeasured - meanQ (g.map (fun x => x.valueMeasured))) ^ 2)).sum

/-- Group the rows by their key under `cols`: the distinct keys in order of
first appearance, each with the rows carrying it. -/
def groupsBy (cols : List Str) (rows : List OverviewRow) :
    List (List Str × List OverviewRow) :=
  (dedupFirst (rows.map (groupKey cols))).map
    (fun k => (k, rows.filter (fun r => decide (groupKey cols r = k))))

/-- Modelled from the spec: `compute_grouped_nrmse(overview_data, group_cols,
norm_method='mean')` — one (squared) NRMSE value per group. -/
def compute_grouped_nrmse (rows : List OverviewRow) (cols : List Str) :
    List (List Str × ℚ) :=
  (groupsBy cols rows).map (fun p => (p.1, nrmseSqOf p.2))

/-- Modelled from the spec: `calculate_mpe(overview_data, group_cols)`. -/
def calculate_mpe (rows : List OverviewRow) (cols : List Str) :
    List (List Str × ℚ) :=
  (groupsBy cols rows).map (fun p => (p.1, mpeOf p.2))

/-- Modelled from the spec: `calculate_r2_1to1(overview_data, group_cols)`. -/
def calculate_r2_1to1 (rows : List OverviewRow) (cols : List Str) :
    List (List Str × ℚ) :=
  (groupsBy cols rows).map (fun p => (p.1, r2_1to1Of p.2))

/-- Modelled from the spec: `calculate_gain(overview_data, group_cols)`. -/
def calculate_gain (rows : List OverviewRow) (cols : List Str) :
    List (List Str × ℚ) :=
  (groupsBy cols rows).map (fun p => (p.1, gainOf p.2))

/-- `group_cols = ['variable', 'calibration_method', 'short_label',
'long_label', 'treatment']` from both driver scripts. -/
def figure_group_cols : List Str :=
  [str "variable", str "calibration_method", str "short_label",
   str "long_label", str "treatment"]

/-- The four metric tables the driver scripts compute from the overview
data (Figure-5 and Figure-B.2 scripts, after `load_and_process_overview`). -/
def figure_metric_tables (overview : List OverviewRow) :
    List (List Str × ℚ) × List (List Str × ℚ) ×
    List (List Str × ℚ) × List (List Str × ℚ) :=
  (compute_grouped_nrmse overview figure_group_cols,
   calculate_mpe overview figure_group_cols,
   calculate_r2_1to1 overview figure_group_cols,
   calculate_gain overview figure_group_cols)

/-!
## `prepare_metrics_by_treatment` (src/src/data_preparation_grid.py, lines 51-102)

Pivots each of the four metric tables to variable × calibration-label form
for one treatment, rounds the NRMSE pivot to `NRMSE_DECIMALS` decimals, and
reorders rows by ascending row mean and columns by ascending column mean of
the rounded NRMSE; the other three pivots are reindexed with the same
orders (`.loc[treatment_order_trt, calib_order_trt]`).
-/

/-- One row of a computed metric table as `prepare_metrics_by_treatment`
consumes it (`variable`, `short_label`, `treatment` and the metric value). -/
structure MetricRow where
  variableName : Str
  shortLabel : Str
  treatment : Str
  value : ℚ
deriving DecidableEq

/-- A pandas pivot table: row labels, column labels, and an entry matrix
with `none` for the NaN holes of missing combinations. -/
structure PivotTable where
  rowLabels : List Str
  colLabels : List Str
  entries : List (List (Option ℚ))
deriving DecidableEq

/-- `NRMSE_DECIMALS = 2` from src/src/data_preparation_grid.py. -/
def NRMSE_DECIMALS : Nat := 2

/-- Round to an integer, halves to even (the rounding of
`DataFrame.round`). -/
def roundHalfEven (q : ℚ) : Int :=
  let f := Int.floor q
  let r := q - (f : ℚ)
  if r < 1/2 then f
  else if 1/2 < r then f + 1
  else if f % 2 = 0 then f else f + 1

/-- `round(NRMSE_DECIMALS)` on one cell. -/
def roundQ2 (q : ℚ) : ℚ := (roundHalfEven (q * 10 ^ NRMSE_DECIMALS) : ℚ) / 10 ^ NRMSE_DECIMALS

/-- The metric rows for one treatment restricted to the selected variables
and calibration labels. -/
def filteredMetric (rs : List MetricRow) (t : Str) (selVars selLabels : List Str) :
    List MetricRow :=
  rs.filter (fun r => decide (r.treatment = t) && selVars.contains r.variableName &&
    selLabels.contains r.shortLabel)

/-- The cell of `DataFrame.pivot(index='variable', columns='short_label',
values=...)`: the value of the row with that variable and label (`pandas`
raises on duplicates; the first match is taken here). -/
def pivotLookup (rs : List MetricRow) (v l : Str) : Option ℚ :=
  (rs.find? (fun r => decide (r.variableName = v) && decide (r.shortLabel = l))).map
    (fun r => r.value)

/-- The pivot of a metric-row list: sorted distinct variables as rows,
sorted distinct labels as columns. -/
def pivotOf (rs : List MetricRow) : PivotTable :=
  let vs := insertionSort strLe (dedupFirst (rs.map (fun r => r.variableName)))
  let ls := insertionSort strLe (dedupFirst (rs.map (fun r => r.shortLabel)))
  ⟨vs, ls, vs.map (fun v => ls.map (fun l => pivotLookup rs v l))⟩

/-- `.round(NRMSE_DECIMALS)` on a whole pivot table. -/
def roundTable (p : PivotTable) : PivotTable :=
  { p with entries := p.entries.map (fun row => row.map (Option.map roundQ2)) }

/-- `pandas` mean along an axis: NaN cells are skipped, all-NaN gives
NaN. -/
def optMean (l : List (Option ℚ)) : Option ℚ :=
  let vs := l.filterMap id
  if vs.isEmpty then none else some (meanQ vs)

/-- The ordering `sort_values` uses on possibly-NaN means: NaN sorts
last. -/
def leOpt (a b : Option ℚ) : Bool :=
  match a, b with
  | some x, some y => decide (x ≤ y)
  | some _, none => true
  | none, some _ => false
  | none, none => true

/-- `pivot_table.mean(axis=1)`: each row label with its row mean. -/
def rowMeans (p : PivotTable) : List (Str × Option ℚ) :=
  p.rowLabels.zip (p.entries.map optMean)

/-- `pivot_table.mean(axis=0)`: each column label with its column mean. -/
def colMeans (p : PivotTable) : List (Str × Option ℚ) :=
  p.colLabels.zip (p.entries.transpose.map optMean)

/-- `.loc[v, l]` on a pivot table (`none` when a label is absent, where
`pandas` would raise a `KeyError`). -/
def cellOf (p : PivotTable) (v l : Str) : Option ℚ :=
  match p.rowLabels.findIdx? (fun a => decide (a = v)),
        p.colLabels.findIdx? (fun a => decide (a = l)) with
  | some i, some jcol => (p.entries.getD i []).getD jcol none
  | _, _ => none

/-- `.loc[row_order, col_order]`: reindex a pivot table by the given label
orders. -/
def reindexTable (p : PivotTable) (rows cols : List Str) : PivotTable :=
  ⟨rows, cols, rows.map (fun v => cols.map (fun l => cellOf p v l))⟩

/-- `prepare_metrics_by_treatment` from src/src/data_preparation_grid.py:
filter and pivot each metric table for the treatment, round the NRMSE
pivot, sort variables by ascending row mean and labels by ascending column
mean of that rounded pivot, and reindex all four pivots with the same two
orders. -/
def prepare_metrics_by_treatment
    (nrmse_data mpe_data r2_data gain_data : List MetricRow)
    (treatment : Str) (selVars selLabels : List Str) :
    PivotTable × PivotTable × PivotTable × PivotTable :=
  let pivot_rounded :=
    roundTable (pivotOf (filteredMetric nrmse_data treatment selVars selLabels))
  let treatment_order :=
    (insertionSort (fun a b => leOpt a.2 b.2) (rowMeans pivot_rounded)).map Prod.fst
  let calib_order :=
    (insertionSort (fun a b => leOpt a.2 b.2) (colMeans pivot_rounded)).map Prod.fst
  (reindexTable pivot_rounded treatment_order calib_order,
   reindexTable (pivotOf (filteredMetric mpe_data treatment selVars selLabels))
     treatment_order calib_order,
   reindexTable (pivotOf (filteredMetric r2_data treatment selVars selLabels))
     treatment_order calib_order,
   reindexTable (pivotOf (filteredMetric gain_data treatment selVars selLabels))
     treatment_order calib_order)

/-!
## `load_and_process_overview` (src/src/utils.py, lines 177-240)

For each calibration code, validates and parses the subfolder's
`OVERVIEW.OUT`, drops rows with missing measured values, tags every row
with the calibration code and the YAML config fields, concatenates
everything and relabels treatment/variable.  The file system is abstracted
by `overviewOf` (the `OVERVIEW.OUT` lines of each code) and `configOf` (the
parsed `config.yaml`: each field is a YAML list of strings, `[]` when
absent).  The `header_line` second return value of
`extract_simulation_data` is presentation-only and is not modelled.
-/

/-- A row of `extract_simulation_data`'s frame after
`pd.to_numeric(errors='coerce')` on both value columns. -/
structure NumRecord where
  treatment : Str
  cultivar : Str
  varName : Str
  valueSim : Option ℚ
  valueMeas : Option ℚ
  experiment : Option Str
  position : Nat
deriving DecidableEq

/-- Keep a row unless one of `VARIABLE`, `VALUE_SIMULATED`,
`VALUE_MEASURED` contains `'--------'`. -/
def dashKeep (r : RawRecord) : Bool :=
  !(containsSub r.varName (str "--------") || containsSub r.valueSim (str "--------") ||
    containsSub r.valueMeas (str "--------"))

/-- The numeric conversion of both value columns of one raw record. -/
def toNumRecord (r : RawRecord) : NumRecord :=
  { treatment := r.treatment, cultivar := r.cultivar, varName := r.varName,
    valueSim := pyToNumeric r.valueSim, valueMeas := pyToNumeric r.valueMeas,
    experiment := r.experiment, position := r.position }

/-- `extract_simulation_data` from `src/src/utils.py`: the raw scan, the
`'--------'` row filter, then `pd.to_numeric(errors='coerce')` on the value
columns. -/
def extract_simulation_data (lines : List Str) : Option (List NumRecord) :=
  (extract_simulation_data_raw lines).map
    (fun rs => (rs.filter dashKeep).map toNumRecord)

/-- A fully processed overview row as produced by
`load_and_process_overview` (after the rename of `treatment` to
`treatment_cultivar` and the treatment/variable relabelling). -/
structure ProcessedRow where
  treatmentCultivar : Str
  treatment : Option Str
  cultivar : Str
  varName : Option Str
  valueSimulated : Option ℚ
  valueMeasured : Option ℚ
  experiment : Option Str
  position : Nat
  calibrationCode : Str
  plantgroVariables : Str
  overviewVariables : Str
  calibrationMethod : Str
  shortLabel : Str
  longLabel : Str
deriving DecidableEq

/-- `', '.join(value) if value else ''` on a YAML list field. -/
def joinField (v : List Str) : Str :=
  if v.isEmpty then [] else joinWith (str ", ") v

/-- The processed rows contributed by one calibration code: parse its
`OVERVIEW.OUT`, drop rows whose `value_measured` is missing, tag with the
calibration code and the YAML fields, and relabel (`str[:4]` then
`treatments_dic` for the treatment, `variable_name_mapping` for the
variable; an unmapped key becomes NaN, modelled `none`). -/
def perCodeRows (overviewOf : Str → List Str) (configOf : Str → Str → List Str)
    (treatmentsDic : Str → Option Str) (variableMapping : Str → Option Str)
    (code : Str) : Option (List ProcessedRow) :=
  (extract_simulation_data (overviewOf code)).map (fun recs =>
    (recs.filter (fun r => r.valueMeas.isSome)).map (fun r =>
      { treatmentCultivar := r.treatment,
        treatment := treatmentsDic (r.treatment.take 4),
        cultivar := r.cultivar,
        varName := variableMapping r.varName,
        valueSimulated := r.valueSim,
        valueMeasured := r.valueMeas,
        experiment := r.experiment,
        position := r.position,
        calibrationCode := code,
        plantgroVariables := joinField (configOf code (str "plantgro_variables")),
        overviewVariables := joinField (configOf code (str "overview_variables")),
        calibrationMethod := joinField (configOf code (str "calibration_method")),
        shortLabel := joinField (configOf code (str "short_label")),
        longLabel := joinField (configOf code (str "long_label")) }))

/-- `load_and_process_overview` from `src/src/utils.py`: the concatenation
of the per-code frames over the calibration code list (the column-level
rename and relabelling commute with the concatenation and are applied
per row in `perCodeRows`). -/
def load_and_process_overview (codes : List Str) (overviewOf : Str → List Str)
    (configOf : Str → Str → List Str) (treatmentsDic : Str → Option Str)
    (variableMapping : Str → Option Str) : Option (List ProcessedRow) :=
  match codes with
  | [] => some []
  | code :: rest =>
    match perCodeRows overviewOf configOf treatmentsDic variableMapping code with
    | none => none
    | some rs =>
      (load_and_process_overview rest overviewOf configOf treatmentsDic
        variableMapping).map (fun more => rs ++ more)

/-- A concrete `config.yaml` environment for witnesses. -/
def sampleConfig : Str → Str → List Str := fun _ field =>
  if field = str "short_label" then [str "BM"]
  else if field = str "long_label" then [str "Biomass time series"]
  else if field = str "calibration_method" then [str "GLUE"]
  else []

/-- A concrete treatments dictionary for witnesses
(`'WW-2' ↦ 'WW-23'`, the 4-character prefix of the sample treatment). -/
def sampleTdic : Str → Option Str := fun s =>
  if s = str "WW-2" then some (str "WW-23") else none

/-- A concrete variable-name mapping for witnesses. -/
def sampleVmap : Str → Option Str := fun s => some s

/-!
## `load_prepare_time_series_data` (src/src/ts_get_data.py, lines 106-155;
near-identical code in src/src/utils.py, lines 574-630)

The reconciliation segment of `load_prepare_time_series_data`: the parsed
`PlantGro` rows (already filtered to the requested treatment and reduced to
the timing-relevant columns), the parsed `.WHT` measurement rows (with
their `experiment_id` attached) and the simulated-run mapping frame
(`mapping_df`, rows of `experiment_id`/`treatment_number`/`sim_id`/
`treatment`/`genotype`) are inputs; the segment left-merges measurements
with the mapping on `experiment_id` and `TRNO = treatment_number`, filters
by treatment, left-merges timing (`DAS`, `DAP`) from the deduplicated
PlantGro rows on `DATE`/`treatment`/`genotype`, and fills missing `DAP`
values by date arithmetic against the earliest simulated `DAP = 0` date.
-/

/-- A PlantGro row reduced to the timing columns that this segment reads
(`DATE`, `DAS`, `DAP`, `treatment`, `genotype`). -/
structure PGRow where
  date : Str
  das : Int
  dap : Int
  treatment : Str
  genotype : Str
deriving DecidableEq

/-- A `.WHT` measurement row reduced to the join keys this segment reads
(`TRNO`, `DATE`, and the attached `experiment_id`). -/
structure WhtRow where
  trno : Int
  date : Str
  experimentId : Str
deriving DecidableEq

/-- One row of `mapping_df`. -/
structure MapRow where
  experimentId : Str
  treatmentNumber : Int
  simId : Str
  treatment : Str
  genotype : Str
deriving DecidableEq

/-- A measurement row after the left merge with `mapping_df`: `meta` is
`none` on the NaN fill of an unmatched left row. -/
structure MergedRow where
  trno : Int
  date : Str
  experimentId : Str
  meta : Option MapRow
deriving DecidableEq

/-- A measurement row after the timing merge: `das`/`dap` are `none` where
the merge left NaN. -/
structure TimedRow where
  base : MergedRow
  das : Option Int
  dap : Option Int
deriving DecidableEq

/-- `wht_full_df.merge(mapping_df, left_on=['experiment_id', 'TRNO'],
right_on=['experiment_id', 'treatment_number'], how='left')`. -/
def mergeMapping (whts : List WhtRow) (mapping : List MapRow) : List MergedRow :=
  whts.flatMap (fun w =>
    match mapping.filter (fun m => decide (m.experimentId = w.experimentId) &&
        decide (m.treatmentNumber = w.trno)) with
    | [] => [{ trno := w.trno, date := w.date, experimentId := w.experimentId,
               meta := none }]
    | ms => ms.map (fun m =>
        { trno := w.trno, date := w.date, experimentId := w.experimentId,
          meta := some m }))

/-- `wht_full_df[wht_full_df['treatment'] == treatment]` (a NaN treatment
compares unequal). -/
def filterTreatment (t : Str) (rs : List MergedRow) : List MergedRow :=
  rs.filter (fun r =>
    match r.meta with
    | some m => decide (m.treatment = t)
    | none => false)

/-- Worker for `dropDupTiming`, carrying the key set already seen. -/
def dropDupTimingAux : List PGRow → List (Str × Str × Str) → List PGRow
  | [], _ => []
  | p :: rest, seen =>
    if (p.date, p.treatment, p.genotype) ∈ seen then dropDupTimingAux rest seen
    else p :: dropDupTimingAux rest ((p.date, p.treatment, p.genotype) :: seen)

/-- `plantgro_df[timing_cols].drop_duplicates(subset=['DATE', 'treatment',
'genotype'])`. -/
def dropDupTiming (pgs : List PGRow) : List PGRow := dropDupTimingAux pgs []

/-- `wht_full_df.merge(timing_df, how='left', on=['DATE', 'treatment',
'genotype'])`: after deduplication the right side has at most one match per
key, so the left merge annotates each row with the timing of its (unique)
hit, or NaN. -/
def mergeTiming (rs : List MergedRow) (timing : List PGRow) : List TimedRow :=
  rs.map (fun r =>
    let timingHit : Option PGRow :=
      match r.meta with
      | none => none
      | some m => timing.find? (fun p => decide (p.date = r.date) &&
          decide (p.treatment = m.treatment) && decide (p.genotype = m.genotype))
    { base := r, das := timingHit.map (fun p => p.das),
      dap := timingHit.map (fun p => p.dap) })

/-- Gregorian leap year. -/
def isLeapYear (y : Nat) : Bool :=
  (y % 4 == 0 && y % 100 != 0) || y % 400 == 0

/-- Days in the Gregorian years `1 .. y-1`. -/
def daysBeforeYear (y : Nat) : Nat :=
  365 * (y - 1) + (y - 1) / 4 - (y - 1) / 100 + (y - 1) / 400

/-- `pd.to_datetime(s, format='%Y%j')` as an absolute day number: a
4-digit year followed by a 3-digit day-of-year in range; `none` models the
parse error `to_datetime` raises. -/
def dateNum (s : Str) : Option Int :=
  match s with
  | [y1, y2, y3, y4, d1, d2, d3] => do
    let a ← digitVal y1
    let b ← digitVal y2
    let c2 ← digitVal y3
    let d4 ← digitVal y4
    let e1 ← digitVal d1
    let e2 ← digitVal d2
    let e3 ← digitVal d3
    let y := 1000 * a + 100 * b + 10 * c2 + d4
    let doy := 100 * e1 + 10 * e2 + e3
    if 1 ≤ doy ∧ (doy ≤ 365 ∨ (doy = 366 ∧ isLeapYear y = true)) then
      some ((daysBeforeYear y : Int) + doy)
    else none
  | _ => none

/-- Sequence a list of options (`none` as soon as one element is
`none`). -/
def optTraverse {α : Type} : List (Option α) → Option (List α)
  | [] => some []
  | none :: _ => none
  | some a :: rest => (optTraverse rest).map (fun l => a :: l)

/-- The reference date: the earliest of the distinct simulated dates at
which `DAP == 0` (`dap0_dates_dt.min()`); `none` both for the NaT of an
empty selection and for a date-parse failure. -/
def dap0Ref (pgs : List PGRow) : Option Int :=
  match optTraverse ((dedupFirst ((pgs.filter (fun p => decide (p.dap = 0))).map
      (fun p => p.date))).map dateNum) with
  | none => none
  | some ds => ds.min?

/-- The fill step on one measurement row: `DATE_dt` is computed for every
row (a parse failure raises, modelled `none`); a present `DAP` is kept
unchanged, a missing one becomes the whole-day difference from the
reference date (and stays missing when the reference is NaT). -/
def fillDap (ref : Option Int) (r : TimedRow) : Option TimedRow :=
  (dateNum r.base.date).map (fun d =>
    match r.dap with
    | some _ => r
    | none => { r with dap := ref.map (fun rd => d - rd) })

/-- The DAP fill over all measurement rows. -/
def fillDapRows (ref : Option Int) (rs : List TimedRow) : Option (List TimedRow) :=
  optTraverse (rs.map (fillDap ref))

/-- The reconciliation segment of `load_prepare_time_series_data`
(src/src/ts_get_data.py, lines 71-155): treatment filter on PlantGro, left
merge of measurements with the run mapping, treatment filter, timing merge,
and DAP fill. -/
def load_prepare_time_series_enrich (plantgro : List PGRow) (whts : List WhtRow)
    (mapping : List MapRow) (treatment : Str) : Option (List TimedRow) :=
  let pgs := plantgro.filter (fun p => decide (p.treatment = treatment))
  let merged := filterTreatment treatment (mergeMapping whts mapping)
  let timed := mergeTiming merged (dropDupTiming pgs)
  fillDapRows (dap0Ref pgs) timed

/-- Concrete PlantGro rows for the C3 witness. -/
def samplePG : List PGRow :=
  [{ date := str "2023100", das := 0, dap := 0, treatment := str "WW-23",
     genotype := str "G1" },
   { date := str "2023110", das := 10, dap := 10, treatment := str "WW-23",
     genotype := str "G1" }]

/-- Concrete measurement rows for the C3 witness: the first has simulated
timing for its date, the second has none and needs the date-arithmetic
fill. -/
def sampleWht : List WhtRow :=
  [{ trno := 1, date := str "2023110", experimentId := str "E1" },
   { trno := 1, date := str "2023115", experimentId := str "E1" }]

/-- Concrete run mapping for the C3 witness. -/
def sampleMapping : List MapRow :=
  [{ experimentId := str "E1", treatmentNumber := 1, simId := str "WW-23_G1",
     treatment := str "WW-23", genotype := str "G1" }]

-- ===================================================================
-- Theorems
-- ===================================================================

/-- Claim C8: `wht_filedata_to_dataframe` raises `ValueError` when the file
has no line starting with `@`; raises `ValueError` when some data line (a
non-blank line not starting with `*`, `!` or `@`) splits into a number of
whitespace-separated tokens different from the number of header columns; and
otherwise returns the DataFrame whose columns are the tokens of the first
`@` line (leading `@` removed) and whose rows are exactly the tokenized data
lines in file order. -/
theorem wht_filedata_to_dataframe_characterization (lines : List Str) :
    (whtHeaderLine lines = none →
      wht_filedata_to_dataframe lines = .error .noHeader) ∧
    (∀ header, whtHeaderLine lines = some header →
      ((∀ l ∈ whtDataLines lines,
          (wsTokens l).length = (whtColumns header).length) →
        wht_filedata_to_dataframe lines =
          .ok (whtColumns header, (whtDataLines lines).map wsTokens)) ∧
      ((∃ l ∈ whtDataLines lines,
          (wsTokens l).length ≠ (whtColumns header).length) →
        ∃ bad ∈ whtDataLines lines,
          (wsTokens bad).length ≠ (whtColumns header).length ∧
          wht_filedata_to_dataframe lines = .error (.inconsistentRow bad))) := by
  refine ⟨fun h => by simp [wht_filedata_to_dataframe, h], fun header hh => ?_⟩
  constructor
  · intro hgood
    have : ∀ ds : List Str, (∀ l ∈ ds, (wsTokens l).length = (whtColumns header).length) →
        whtParseRows (whtColumns header).length ds = .ok (ds.map wsTokens) := by
      intro ds
      induction ds with
      | nil => intro _; rfl
      | cons d rest ih =>
        intro hall
        have hd := hall d (by simp)
        have hr := ih (fun l hl => hall l (by simp [hl]))
        simp [whtParseRows, hd, hr, Except.map]
    simp [wht_filedata_to_dataframe, hh, this _ hgood, Except.map]
  · intro ⟨l0, hl0, hlen⟩
    have : ∀ ds : List Str, (∃ l ∈ ds, (wsTokens l).length ≠ (whtColumns header).length) →
        ∃ bad ∈ ds, (wsTokens bad).length ≠ (whtColumns header).length ∧
          whtParseRows (whtColumns header).length ds = .error (.inconsistentRow bad) := by
      intro ds
      induction ds with
      | nil => rintro ⟨l, hl, _⟩; cases hl
      | cons d rest ih =>
        rintro ⟨l, hl, hlne⟩
        by_cases hd : (wsTokens d).length = (whtColumns header).length
        · have hlr : l ∈ rest := by
            rcases List.mem_cons.mp hl with h | h
            · exact absurd (h ▸ hd) hlne
            · exact h
          obtain ⟨bad, hbm, hbne, hbe⟩ := ih ⟨l, hlr, hlne⟩
          exact ⟨bad, by simp [hbm], hbne, by simp [whtParseRows, hd, hbe, Except.map]⟩
        · exact ⟨d, by simp, hd, by simp [whtParseRows, hd]⟩
    obtain ⟨bad, hbm, hbne, hbe⟩ := this _ ⟨l0, hl0, hlen⟩
    exact ⟨bad, hbm, hbne, by simp [wht_filedata_to_dataframe, hh, hbe, Except.map]⟩

/-- Witness for C8: on a concrete well-formed `.WHT` file the parse succeeds
with the claimed columns and rows, and on a file with a short row it raises;
both follow by applying the characterization theorem. -/
theorem wht_filedata_to_dataframe_characterization_witness :
    wht_filedata_to_dataframe
        [str "*EXP", str "@TRNO DATE GWAD", str " 1 2023100 500"] =
      .ok ([str "TRNO", str "DATE", str "GWAD"],
           [[str "1", str "2023100", str "500"]]) ∧
    wht_filedata_to_dataframe [str "@TRNO DATE", str " 1 2 3"] =
      .error (.inconsistentRow (str "1 2 3")) := by
  constructor
  · exact ((wht_filedata_to_dataframe_characterization
      [str "*EXP", str "@TRNO DATE GWAD", str " 1 2023100 500"]).2
      (str "@TRNO DATE GWAD") (by decide)).1 (by decide)
  · obtain ⟨bad, hbm, hbne, hbe⟩ := ((wht_filedata_to_dataframe_characterization
      [str "@TRNO DATE", str " 1 2 3"]).2 (str "@TRNO DATE") (by decide)).2
      ⟨str "1 2 3", by decide, by decide⟩
    have hds : whtDataLines [str "@TRNO DATE", str " 1 2 3"] = [str "1 2 3"] := by decide
    rw [hds] at hbm
    have : bad = str "1 2 3" := List.mem_singleton.mp hbm
    exact this ▸ hbe

/-- Claim C10: `validate_file_path` raises `ValueError` exactly when its
argument is empty or not a string, raises `FileNotFoundError` exactly when
the argument is a non-empty string naming no existing file, and otherwise
returns its argument unchanged. -/
theorem validate_file_path_characterization (isfile : Str → Bool) (v : PyVal) :
    (validate_file_path isfile v = .error .valueError ↔
      ¬ ∃ s, v = .pyStr s ∧ s ≠ []) ∧
    (validate_file_path isfile v = .error .fileNotFoundError ↔
      ∃ s, v = .pyStr s ∧ s ≠ [] ∧ isfile s = false) ∧
    (∀ s, v = .pyStr s → s ≠ [] → isfile s = true →
      validate_file_path isfile v = .ok v) := by
  rcases v with s | _ | n
  · by_cases hs : s = []
    · subst hs
      refine ⟨by simp [validate_file_path, truthy, List.isEmpty], ?_, ?_⟩
      · simp [validate_file_path, truthy, List.isEmpty]
      · intro s h; simp at h; intro hne; exact absurd h.symm hne
    · by_cases hf : isfile s = true
      · refine ⟨?_, ?_, ?_⟩
        · simp [validate_file_path, truthy, isStrVal, List.isEmpty_iff, hs, hf]
        · simp [validate_file_path, truthy, isStrVal, List.isEmpty_iff, hs, hf]
        · intro t ht _ _
          have : t = s := by injection ht.symm
          subst this
          simp [validate_file_path, truthy, isStrVal, List.isEmpty_iff, hs, hf]
      · have hf' : isfile s = false := by simpa using hf
        refine ⟨?_, ?_, ?_⟩
        · simp [validate_file_path, truthy, isStrVal, List.isEmpty_iff, hs, hf']
        · simp [validate_file_path, truthy, isStrVal, List.isEmpty_iff, hs, hf']
        · intro t ht _ hft
          have : t = s := by injection ht.symm
          subst this
          exact absurd hft (by simp [hf'])
  · refine ⟨by simp [validate_file_path, truthy, isStrVal], ?_, ?_⟩
    · simp [validate_file_path, truthy, isStrVal]
    · intro s h; cases h
  · refine ⟨?_, ?_, ?_⟩
    · constructor
      · rintro _ ⟨s, hs, _⟩; cases hs
      · intro _
        by_cases hn : n = 0 <;> simp [validate_file_path, truthy, isStrVal, hn]
    · constructor
      · intro h
        by_cases hn : n = 0 <;> simp [validate_file_path, truthy, isStrVal, hn] at h
      · rintro ⟨s, hs, _⟩; cases hs
    · intro s h; cases h

/-- Witness for C10: concrete checks of all three branches by applying the
characterization theorem. -/
theorem validate_file_path_characterization_witness :
    validate_file_path (fun p => p = str "a.txt") (.pyStr (str "a.txt")) =
      .ok (.pyStr (str "a.txt")) ∧
    validate_file_path (fun p => p = str "a.txt") (.pyStr (str "b.txt")) =
      .error .fileNotFoundError ∧
    validate_file_path (fun p => p = str "a.txt") .pyNone = .error .valueError := by
  refine ⟨?_, ?_, ?_⟩
  · exact (validate_file_path_characterization (fun p => p = str "a.txt")
      (.pyStr (str "a.txt"))).2.2 (str "a.txt") rfl (by decide) (by decide)
  · exact ((validate_file_path_characterization (fun p => p = str "a.txt")
      (.pyStr (str "b.txt"))).2.1).mpr ⟨str "b.txt", rfl, by decide, by decide⟩
  · exact ((validate_file_path_characterization (fun p => p = str "a.txt")
      .pyNone).1).mpr (by rintro ⟨s, hs, _⟩; cases hs)

/-- Claim C9: each figure-generation workflow persists its result only as a
single static image file under the given output directory:
`create_heatmap_plot` writes exactly the one image named from the figure
name, the treatment and the configured file format, and
`create_parameter_barplot` writes exactly its one fixed-named image in the
configured format; neither writes any other file. -/
theorem figure_workflows_write_one_image (output_dir figure_name treatment base_output : Str) :
    create_heatmap_plot_writes output_dir figure_name treatment =
      [pathJoin output_dir
        (figure_name ++ str "_heatmap_" ++ treatment ++ str "." ++ FILE_FORMAT)] ∧
    (create_heatmap_plot_writes output_dir figure_name treatment).length = 1 ∧
    create_parameter_barplot_writes base_output =
      [pathJoin base_output (str "Figure-3_parameters_barplot." ++ FILE_FORMAT)] ∧
    (create_parameter_barplot_writes base_output).length = 1 :=
  ⟨rfl, rfl, rfl, rfl⟩

theorem joinWith_single (sep x : Str) : joinWith sep [x] = x := by
  simp [joinWith, List.intercalate, List.intersperse]

theorem treatmentKey_of_wf (l : Str) (h : treatmentLineWF l) :
    treatmentKey l = some (specTreatmentName l) ∧ specTreatmentName l ≠ [] := by
  obtain ⟨h2, hne, hname⟩ := h
  rcases hsp : splitOnSub l (str ":") with _ | ⟨a, _ | ⟨p, _ | ⟨c, rest⟩⟩⟩ <;>
    rw [hsp] at h2 <;> simp at h2
  rw [hsp] at hne hname
  simp only [List.getD, List.get?, Option.getD] at hne hname
  constructor
  · simp [treatmentKey, hsp, hne, specTreatmentName, afterFirstColon, joinWith_single]
  · simpa [specTreatmentName, afterFirstColon, hsp, joinWith_single] using hname

theorem slLoop_eq_spec (runs : List (Nat × Str)) (n : Nat)
    (hwf : ∀ r ∈ runs, treatmentLineWF r.2) :
    ∀ ds acc, slLoop runs n ds acc = some (slLoopSpec runs n ds acc) := by
  intro ds
  induction ds with
  | nil => intro acc; rfl
  | cons s rest ih =>
    intro acc
    simp only [slLoop, slLoopSpec]
    cases hf : runs.find? (fun r => s ≤ r.1 && r.1 ≤ blockEnd rest n) with
    | none => exact ih acc
    | some r =>
      obtain ⟨i, l⟩ := r
      have hmem := List.mem_of_find?_eq_some hf
      obtain ⟨hk, hne⟩ := treatmentKey_of_wf l (hwf (i, l) hmem)
      dsimp only
      rw [hk]
      dsimp only
      rw [if_neg hne]
      exact ih _

/-- Claim C1: for every input file whose `TREATMENT` lines are well formed,
`simulations_lines` returns the dictionary that maps each treatment name
(the text of the block's first `TREATMENT` line after the colon with the
trailing run-number token removed) to the pair `(start, end)` where `start`
is the index of a line containing `*DSSAT` and `end` is the index of the
line immediately before the next `*DSSAT` line, or the end of the file
(`len(lines)`) for the final block; a block whose range contains no
`TREATMENT` line produces no entry.  The right-hand side
`simulations_lines_spec` is built directly from that description. -/
theorem simulations_lines_matches_spec (lines : List Str)
    (hwf : ∀ r ∈ runLinesOf lines, treatmentLineWF r.2) :
    simulations_lines lines = some (simulations_lines_spec lines) :=
  slLoop_eq_spec (runLinesOf lines) lines.length hwf (dssatLinesOf lines) []

/-- Witness for C1: the well-formedness hypothesis holds on the concrete
two-block sample file, the theorem applies, and the resulting dictionary is
the expected one. -/
theorem simulations_lines_matches_spec_witness :
    (∀ r ∈ runLinesOf sampleOverviewLines, treatmentLineWF r.2) ∧
    simulations_lines sampleOverviewLines = some (simulations_lines_spec sampleOverviewLines) ∧
    simulations_lines_spec sampleOverviewLines =
      [(str "WW-23_GENO1", 0, 2), (str "DR-22_GENO2", 3, 5)] :=
  ⟨by decide, simulations_lines_matches_spec sampleOverviewLines (by decide), by decide⟩

theorem pyStartsWith_cons {l : Str} {a : Char} {p : Str}
    (h : pyStartsWith l (a :: p) = true) : ∃ l2, l = a :: l2 := by
  cases l with
  | nil => simp [pyStartsWith, List.isPrefixOf] at h
  | cons b l2 =>
    simp only [pyStartsWith, List.isPrefixOf, Bool.and_eq_true, beq_iff_eq] at h
    exact ⟨l2, by rw [h.1]⟩

theorem pyStartsWith_false_of_ne {l : Str} {a b : Char} {p q : Str} (hab : a ≠ b)
    (h : pyStartsWith l (a :: p) = true) : pyStartsWith l (b :: q) = false := by
  obtain ⟨l2, rfl⟩ := pyStartsWith_cons h
  cases hq : pyStartsWith (a :: l2) (b :: q) with
  | false => rfl
  | true =>
    obtain ⟨l3, h3⟩ := pyStartsWith_cons hq
    injection h3 with h31 _
    exact absurd h31 hab

theorem startsEXP_not_CROP {l : Str} (h : pyStartsWith l (str "EXPERIMENT") = true) :
    pyStartsWith l (str "CROP") = false := by
  rw [show str "EXPERIMENT" = 'E' :: str "XPERIMENT" from rfl] at h
  rw [show str "CROP" = 'C' :: str "ROP" from rfl]
  exact pyStartsWith_false_of_ne (by decide) h

theorem startsEXP_not_AT {l : Str} (h : pyStartsWith l (str "EXPERIMENT") = true) :
    pyStartsWith l (str "@") = false := by
  rw [show str "EXPERIMENT" = 'E' :: str "XPERIMENT" from rfl] at h
  rw [show str "@" = '@' :: str "" from rfl]
  exact pyStartsWith_false_of_ne (by decide) h

theorem startsCROP_not_EXP {l : Str} (h : pyStartsWith l (str "CROP") = true) :
    pyStartsWith l (str "EXPERIMENT") = false := by
  rw [show str "CROP" = 'C' :: str "ROP" from rfl] at h
  rw [show str "EXPERIMENT" = 'E' :: str "XPERIMENT" from rfl]
  exact pyStartsWith_false_of_ne (by decide) h

theorem startsCROP_not_AT {l : Str} (h : pyStartsWith l (str "CROP") = true) :
    pyStartsWith l (str "@") = false := by
  rw [show str "CROP" = 'C' :: str "ROP" from rfl] at h
  rw [show str "@" = '@' :: str "" from rfl]
  exact pyStartsWith_false_of_ne (by decide) h

theorem startsAT_not_EXP {l : Str} (h : pyStartsWith l (str "@") = true) :
    pyStartsWith l (str "EXPERIMENT") = false := by
  rw [show str "@" = '@' :: str "" from rfl] at h
  rw [show str "EXPERIMENT" = 'E' :: str "XPERIMENT" from rfl]
  exact pyStartsWith_false_of_ne (by decide) h

theorem startsAT_not_CROP {l : Str} (h : pyStartsWith l (str "@") = true) :
    pyStartsWith l (str "CROP") = false := by
  rw [show str "@" = '@' :: str "" from rfl] at h
  rw [show str "CROP" = 'C' :: str "ROP" from rfl]
  exact pyStartsWith_false_of_ne (by decide) h

theorem afterColonCode_two {l : Str} (h : (splitOnSub l (str ":")).length = 2) :
    afterColonCode l = some (pyStrip (afterFirstColon l)) := by
  rcases hsp : splitOnSub l (str ":") with _ | ⟨a, _ | ⟨p, rest⟩⟩ <;>
    rw [hsp] at h <;> simp at h
  have hre : rest = [] := by simpa using h
  subst hre
  simp [afterColonCode, hsp, afterFirstColon, joinWith_single]

theorem parseRows_fields (t cv : Str) (ex : Option Str) :
    ∀ (tbl : List Str) (pos : Nat) (rows : List RawRecord),
      parseRows t (some cv) ex pos tbl = some rows →
      ∀ r ∈ rows, r.treatment = t ∧ r.experiment = ex ∧ r.cultivar = cv := by
  intro tbl
  induction tbl with
  | nil =>
    intro pos rows h r hr
    simp only [parseRows] at h
    cases h
    cases hr
  | cons l rest ih =>
    intro pos rows h r hr
    simp only [parseRows] at h
    rcases htk : (wsTokens (pyStrip l)).reverse with _ | ⟨meas, _ | ⟨sim, restRev⟩⟩ <;>
      rw [htk] at h
    · cases h
    · cases h
    · cases hrec : parseRows t (some cv) ex (pos + 1) rest with
      | none => rw [hrec] at h; cases h
      | some rs =>
        rw [hrec] at h
        simp only [Option.map, Option.some.injEq] at h
        subst h
        rcases List.mem_cons.mp hr with hr1 | hr2
        · subst hr1; exact ⟨rfl, rfl, rfl⟩
        · exact ih (pos + 1) rs hrec r hr2

theorem scanStep_exp (lines : List Str) (t : Str) (i : Nat) (st : ScanState) (v : Str)
    (hE : pyStartsWith (pyStrip (lines.getD i [])) (str "EXPERIMENT") = true)
    (hac : afterColonCode (pyStrip (lines.getD i [])) = some v) :
    scanStep lines t i st = some { st with expInfo := some v } := by
  have hC := startsEXP_not_CROP hE
  have hA := startsEXP_not_AT hE
  dsimp only [scanStep]
  rw [hE, hC, hA, hac]
  simp

theorem scanStep_crop (lines : List Str) (t : Str) (i : Nat) (st : ScanState)
    (hCC : (pyStartsWith (pyStrip (lines.getD i [])) (str "CROP") &&
            containsSub (pyStrip (lines.getD i [])) (str "CULTIVAR :")) = true) :
    scanStep lines t i st =
      some { st with cultivar := some (cultivarOf (pyStrip (lines.getD i []))) } := by
  have hCp : pyStartsWith (pyStrip (lines.getD i [])) (str "CROP") = true :=
    (Bool.and_eq_true _ _ |>.mp hCC).1
  have hE := startsCROP_not_EXP hCp
  have hA := startsCROP_not_AT hCp
  dsimp only [scanStep]
  rw [hE, hCC, hA]
  simp

theorem scanStep_table (lines : List Str) (t : Str) (i : Nat) (st : ScanState)
    (rows : List RawRecord)
    (hA : pyStartsWith (pyStrip (lines.getD i [])) (str "@") = true)
    (hrows : parseRows t st.cultivar st.expInfo 1 (tableLinesAt lines i) = some rows) :
    scanStep lines t i st =
      some { st with culData := st.culData ++ rows,
                     emitted := st.emitted ++ st.culData ++ rows } := by
  have hE := startsAT_not_EXP hA
  have hC := startsAT_not_CROP hA
  dsimp only [scanStep]
  rw [hE, hC, hA]
  simp [hrows]

theorem scanStep_table_err (lines : List Str) (t : Str) (i : Nat) (st : ScanState)
    (hA : pyStartsWith (pyStrip (lines.getD i [])) (str "@") = true)
    (hrows : parseRows t st.cultivar st.expInfo 1 (tableLinesAt lines i) = none) :
    scanStep lines t i st = none := by
  have hE := startsAT_not_EXP hA
  have hC := startsAT_not_CROP hA
  dsimp only [scanStep]
  rw [hE, hC, hA]
  simp [hrows]

theorem scanStep_plain (lines : List Str) (t : Str) (i : Nat) (st : ScanState)
    (hE : pyStartsWith (pyStrip (lines.getD i [])) (str "EXPERIMENT") = false)
    (hCC : (pyStartsWith (pyStrip (lines.getD i [])) (str "CROP") &&
            containsSub (pyStrip (lines.getD i [])) (str "CULTIVAR :")) = false)
    (hA : pyStartsWith (pyStrip (lines.getD i [])) (str "@") = false) :
    scanStep lines t i st = some st := by
  dsimp only [scanStep]
  rw [hE, hCC, hA]
  simp

theorem scanBlockAux_keying
    (lines : List Str) (t : Str) (e j c : Nat)
    (hjl : pyStartsWith (pyStrip (lines.getD j [])) (str "EXPERIMENT") = true)
    (hjcolon : (splitOnSub (pyStrip (lines.getD j [])) (str ":")).length = 2)
    (hcl : (pyStartsWith (pyStrip (lines.getD c [])) (str "CROP") &&
            containsSub (pyStrip (lines.getD c [])) (str "CULTIVAR :")) = true) :
    ∀ (n i : Nat) (st st' : ScanState),
      i + n = e →
      (∀ m, m < e → i ≤ m →
        pyStartsWith (pyStrip (lines.getD m [])) (str "EXPERIMENT") = true → m = j) →
      (∀ m, m < e → i ≤ m →
        (pyStartsWith (pyStrip (lines.getD m [])) (str "CROP") &&
         containsSub (pyStrip (lines.getD m [])) (str "CULTIVAR :")) = true → m = c) →
      (∀ m, m < e → i ≤ m →
        pyStartsWith (pyStrip (lines.getD m [])) (str "@") = true → j < m ∧ c < m) →
      (j < i → st.expInfo = some (pyStrip (afterFirstColon (pyStrip (lines.getD j []))))) →
      (c < i → st.cultivar = some (cultivarOf (pyStrip (lines.getD c [])))) →
      (∀ r ∈ st.culData, r.treatment = t ∧
        r.experiment = some (pyStrip (afterFirstColon (pyStrip (lines.getD j [])))) ∧
        r.cultivar = cultivarOf (pyStrip (lines.getD c []))) →
      (∀ r ∈ st.emitted, r.treatment = t ∧
        r.experiment = some (pyStrip (afterFirstColon (pyStrip (lines.getD j [])))) ∧
        r.cultivar = cultivarOf (pyStrip (lines.getD c []))) →
      scanBlockAux lines t i n st = some st' →
      ∀ r ∈ st'.emitted, r.treatment = t ∧
        r.experiment = some (pyStrip (afterFirstColon (pyStrip (lines.getD j [])))) ∧
        r.cultivar = cultivarOf (pyStrip (lines.getD c [])) := by
  intro n
  induction n with
  | zero =>
    intro i st st' _ _ _ _ _ _ _ hemit hscan
    cases hscan
    exact hemit
  | succ nn ih =>
    intro i st st' hie huJ huC huAt hexp hcult hculd hemit hscan
    have hiE : i < e := by omega
    rw [scanBlockAux] at hscan
    cases hstep : scanStep lines t i st with
    | none => rw [hstep] at hscan; cases hscan
    | some st2 =>
      rw [hstep] at hscan
      dsimp only at hscan
      by_cases hE : pyStartsWith (pyStrip (lines.getD i [])) (str "EXPERIMENT") = true
      · -- the EXPERIMENT line of the block: i = j
        have hij : i = j := huJ i hiE (le_refl i) hE
        have hjcolon2 : (splitOnSub (pyStrip (lines.getD i [])) (str ":")).length = 2 := by
          rw [hij]; exact hjcolon
        have hac := afterColonCode_two hjcolon2
        rw [scanStep_exp lines t i st _ hE hac] at hstep
        injection hstep with hst2
        subst hst2
        refine ih (i + 1) _ st' (by omega)
          (fun m hm him => huJ m hm (by omega))
          (fun m hm him => huC m hm (by omega))
          (fun m hm him => huAt m hm (by omega)) ?_ ?_ ?_ ?_ hscan
        · intro _
          dsimp only
          rw [hij]
        · intro hci1
          dsimp only
          have hci : c < i := by
            rcases Nat.lt_succ_iff_lt_or_eq.mp hci1 with h | h
            · exact h
            · exfalso
              have hCp := (Bool.and_eq_true _ _ |>.mp hcl).1
              rw [h] at hCp
              have hnc := startsEXP_not_CROP hE
              rw [hCp] at hnc
              cases hnc
          exact hcult hci
        · intro r hr
          exact hculd r hr
        · intro r hr
          exact hemit r hr
      · by_cases hCC : (pyStartsWith (pyStrip (lines.getD i [])) (str "CROP") &&
            containsSub (pyStrip (lines.getD i [])) (str "CULTIVAR :")) = true
        · -- the CROP ... CULTIVAR line of the block: i = c
          have hic : i = c := huC i hiE (le_refl i) hCC
          rw [scanStep_crop lines t i st hCC] at hstep
          injection hstep with hst2
          subst hst2
          refine ih (i + 1) _ st' (by omega)
            (fun m hm him => huJ m hm (by omega))
            (fun m hm him => huC m hm (by omega))
            (fun m hm him => huAt m hm (by omega)) ?_ ?_ ?_ ?_ hscan
          · intro hji1
            dsimp only
            have hji : j < i := by
              rcases Nat.lt_succ_iff_lt_or_eq.mp hji1 with h | h
              · exact h
              · exfalso
                have := hjl
                rw [h] at this
                exact hE this
            exact hexp hji
          · intro _
            dsimp only
            rw [hic]
          · intro r hr
            exact hculd r hr
          · intro r hr
            exact hemit r hr
        · by_cases hA : pyStartsWith (pyStrip (lines.getD i [])) (str "@") = true
          · -- a table header line: emit rows
            obtain ⟨hji, hci⟩ := huAt i hiE (le_refl i) hA
            have hexpv := hexp hji
            have hcultv := hcult hci
            cases hrows : parseRows t st.cultivar st.expInfo 1 (tableLinesAt lines i) with
            | none =>
              rw [scanStep_table_err lines t i st hA hrows] at hstep
              cases hstep
            | some rows =>
              rw [scanStep_table lines t i st rows hA hrows] at hstep
              injection hstep with hst2
              subst hst2
              have hrowsG : ∀ r ∈ rows, r.treatment = t ∧
                  r.experiment = some (pyStrip (afterFirstColon (pyStrip (lines.getD j [])))) ∧
                  r.cultivar = cultivarOf (pyStrip (lines.getD c [])) := by
                intro r hr
                have h0 := parseRows_fields t (cultivarOf (pyStrip (lines.getD c [])))
                  st.expInfo (tableLinesAt lines i) 1 rows
                  (by rw [← hcultv]; exact hrows) r hr
                exact ⟨h0.1, by rw [h0.2.1, hexpv], h0.2.2⟩
              refine ih (i + 1) _ st' (by omega)
                (fun m hm him => huJ m hm (by omega))
                (fun m hm him => huC m hm (by omega))
                (fun m hm him => huAt m hm (by omega)) ?_ ?_ ?_ ?_ hscan
              · intro _
                exact hexpv
              · intro _
                exact hcultv
              · intro r hr
                dsimp only at hr
                rcases List.mem_append.mp hr with h1 | h2
                · exact hculd r h1
                · exact hrowsG r h2
              · intro r hr
                dsimp only at hr
                rw [List.append_assoc] at hr
                rcases List.mem_append.mp hr with h1 | h23
                · exact hemit r h1
                · rcases List.mem_append.mp h23 with h2 | h3
                  · exact hculd r h2
                  · exact hrowsG r h3
          · -- an ordinary line: state unchanged
            have hE2 : pyStartsWith (pyStrip (lines.getD i [])) (str "EXPERIMENT") = false := by
              simpa using hE
            have hCC2 : (pyStartsWith (pyStrip (lines.getD i [])) (str "CROP") &&
                containsSub (pyStrip (lines.getD i [])) (str "CULTIVAR :")) = false := by
              simpa using hCC
            have hA2 : pyStartsWith (pyStrip (lines.getD i [])) (str "@") = false := by
              simpa using hA
            rw [scanStep_plain lines t i st hE2 hCC2 hA2] at hstep
            injection hstep with hst2
            subst hst2
            refine ih (i + 1) st st' (by omega)
              (fun m hm him => huJ m hm (by omega))
              (fun m hm him => huC m hm (by omega))
              (fun m hm him => huAt m hm (by omega)) ?_ ?_ hculd hemit hscan
            · intro hji1
              have hji : j < i := by
                rcases Nat.lt_succ_iff_lt_or_eq.mp hji1 with h | h
                · exact h
                · exfalso
                  have := hjl
                  rw [h] at this
                  rw [this] at hE2
                  cases hE2
              exact hexp hji
            · intro hci1
              have hci : c < i := by
                rcases Nat.lt_succ_iff_lt_or_eq.mp hci1 with h | h
                · exact h
                · exfalso
                  have := hcl
                  rw [h] at this
                  rw [this] at hCC2
                  cases hCC2
              exact hcult hci

/-- Claim C2: every record `extract_simulation_data` produces from a given
treatment block of an `OVERVIEW.OUT` file carries that block's treatment
name, the cultivar parsed from the `CROP ... CULTIVAR :` line of that same
block (the text between `CULTIVAR :` and `ECOTYPE`), and the experiment
description parsed from that same block's `EXPERIMENT` line (the text after
the first colon).  The block `(t, s, e)` is one entry of the
`simulations_lines` dictionary; `j` and `c` are the block's unique
`EXPERIMENT` and `CROP ... CULTIVAR :` lines, both of which precede every
`@` table header of the block; `scanBlock` is the per-block scan that
`extract_simulation_data_raw` runs, and `st.emitted` the records the block
contributes. -/
theorem extract_simulation_data_block_keying
    (lines : List Str) (d : List (Str × Nat × Nat)) (t : Str) (s e : Nat)
    (hd : simulations_lines lines = some d) (hmem : (t, (s, e)) ∈ d)
    (j c : Nat) (hj : j < e ∧ s ≤ j) (hc : c < e ∧ s ≤ c)
    (hjl : pyStartsWith (pyStrip (lines.getD j [])) (str "EXPERIMENT") = true)
    (hjcolon : (splitOnSub (pyStrip (lines.getD j [])) (str ":")).length = 2)
    (hcl : (pyStartsWith (pyStrip (lines.getD c [])) (str "CROP") &&
            containsSub (pyStrip (lines.getD c [])) (str "CULTIVAR :")) = true)
    (huJ : ∀ m, m < e → s ≤ m →
      pyStartsWith (pyStrip (lines.getD m [])) (str "EXPERIMENT") = true → m = j)
    (huC : ∀ m, m < e → s ≤ m →
      (pyStartsWith (pyStrip (lines.getD m [])) (str "CROP") &&
       containsSub (pyStrip (lines.getD m [])) (str "CULTIVAR :")) = true → m = c)
    (huAt : ∀ m, m < e → s ≤ m →
      pyStartsWith (pyStrip (lines.getD m [])) (str "@") = true → j < m ∧ c < m)
    (c0 : Option Str) (st : ScanState)
    (hscan : scanBlock lines t s e c0 = some st) :
    ∀ r ∈ st.emitted,
      r.treatment = t ∧
      r.experiment = some (pyStrip (afterFirstColon (pyStrip (lines.getD j [])))) ∧
      r.cultivar = cultivarOf (pyStrip (lines.getD c [])) := by
  have hse : s + (e - s) = e := by omega
  exact scanBlockAux_keying lines t e j c hjl hjcolon hcl (e - s) s _ st hse
    (fun m hm him => huJ m hm him)
    (fun m hm him => huC m hm him)
    (fun m hm him => huAt m hm him)
    (fun hji => absurd hji (by omega))
    (fun hci => absurd hci (by omega))
    (by intro r hr; cases hr)
    (by intro r hr; cases hr)
    hscan

/-- Witness for C2: on the concrete one-block sample file the hypotheses
hold (the `EXPERIMENT` line is line 3, the `CROP ... CULTIVAR :` line is
line 2, the only `@` line is line 5) and the two emitted records carry the
block's treatment, cultivar and experiment. -/
theorem extract_simulation_data_block_keying_witness :
    ∃ st, scanBlock sampleBlockLines (str "WW-23_GENO1") 0 8 none = some st ∧
      ∀ r ∈ st.emitted,
        r.treatment = str "WW-23_GENO1" ∧
        r.experiment =
          some (pyStrip (afterFirstColon (pyStrip (sampleBlockLines.getD 3 [])))) ∧
        r.cultivar = cultivarOf (pyStrip (sampleBlockLines.getD 2 [])) := by
  refine ⟨_, rfl, ?_⟩
  exact extract_simulation_data_block_keying sampleBlockLines
    [(str "WW-23_GENO1", 0, 8)] (str "WW-23_GENO1") 0 8 (by decide) (by decide)
    3 2 (by decide) (by decide) (by decide) (by decide) (by decide)
    (by decide) (by decide) (by decide) none _ rfl

theorem mem_dedupFirstAux {α : Type} [DecidableEq α] (a : α) :
    ∀ (l seen : List α), a ∈ dedupFirstAux l seen ↔ (a ∈ l ∧ a ∉ seen) := by
  intro l
  induction l with
  | nil => intro seen; simp [dedupFirstAux]
  | cons b l ih =>
    intro seen
    by_cases hb : b ∈ seen
    · simp only [dedupFirstAux, if_pos hb, ih, List.mem_cons]
      constructor
      · rintro ⟨h1, h2⟩
        exact ⟨Or.inr h1, h2⟩
      · rintro ⟨h1 | h1, h2⟩
        · subst h1; exact absurd hb h2
        · exact ⟨h1, h2⟩
    · simp only [dedupFirstAux, if_neg hb, List.mem_cons, ih]
      by_cases hab : a = b
      · subst hab; simp [hb]
      · simp [hab]

theorem mem_dedupFirst {α : Type} [DecidableEq α] (a : α) (l : List α) :
    a ∈ dedupFirst l ↔ a ∈ l := by
  rw [dedupFirst, mem_dedupFirstAux]
  simp

theorem mem_metricTable (f : List OverviewRow → ℚ) (cols : List Str)
    (rows : List OverviewRow) (k : List Str) (x : ℚ) :
    (k, x) ∈ (groupsBy cols rows).map (fun p => (p.1, f p.2)) ↔
      ((∃ r ∈ rows, groupKey cols r = k) ∧
       x = f (rows.filter (fun r => decide (groupKey cols r = k)))) := by
  rw [List.mem_map]
  constructor
  · rintro ⟨⟨k0, g0⟩, hmem, heq⟩
    injection heq with hk hx
    subst hk
    subst hx
    unfold groupsBy at hmem
    rcases List.mem_map.mp hmem with ⟨k1, hk1, heq1⟩
    injection heq1 with h1 h2
    subst h1
    have hkl : k1 ∈ rows.map (groupKey cols) := (mem_dedupFirst _ _).mp hk1
    rcases List.mem_map.mp hkl with ⟨r, hr, hrk⟩
    exact ⟨⟨r, hr, hrk⟩, by rw [← h2]⟩
  · rintro ⟨⟨r, hr, hrk⟩, rfl⟩
    refine ⟨(k, rows.filter (fun r => decide (groupKey cols r = k))), ?_, rfl⟩
    unfold groupsBy
    exact List.mem_map.mpr ⟨k,
      (mem_dedupFirst _ _).mpr (List.mem_map.mpr ⟨r, hr, hrk⟩), rfl⟩

/-- Claim C4: the driver scripts obtain the four metric tables by calling
`compute_grouped_nrmse`, `calculate_mpe`, `calculate_r2_1to1` and
`calculate_gain` on the overview data with group columns
`['variable', 'calibration_method', 'short_label', 'long_label',
'treatment']`; each table holds exactly one entry per distinct group key,
whose value is the corresponding metric over exactly that group's
simulated/measured pairs.  (`metrics.py` is not under `src/`; the metric
formulas are modelled from the spec, NRMSE being represented by its
square.) -/
theorem figure_metric_tables_grouping (overview : List OverviewRow)
    (k : List Str) (x : ℚ) :
    ((k, x) ∈ (figure_metric_tables overview).1 ↔
      ((∃ r ∈ overview, groupKey figure_group_cols r = k) ∧
       x = nrmseSqOf (overview.filter (fun r => decide (groupKey figure_group_cols r = k))))) ∧
    ((k, x) ∈ (figure_metric_tables overview).2.1 ↔
      ((∃ r ∈ overview, groupKey figure_group_cols r = k) ∧
       x = mpeOf (overview.filter (fun r => decide (groupKey figure_group_cols r = k))))) ∧
    ((k, x) ∈ (figure_metric_tables overview).2.2.1 ↔
      ((∃ r ∈ overview, groupKey figure_group_cols r = k) ∧
       x = r2_1to1Of (overview.filter (fun r => decide (groupKey figure_group_cols r = k))))) ∧
    ((k, x) ∈ (figure_metric_tables overview).2.2.2 ↔
      ((∃ r ∈ overview, groupKey figure_group_cols r = k) ∧
       x = gainOf (overview.filter (fun r => decide (groupKey figure_group_cols r = k))))) :=
  ⟨mem_metricTable nrmseSqOf figure_group_cols overview k x,
   mem_metricTable mpeOf figure_group_cols overview k x,
   mem_metricTable r2_1to1Of figure_group_cols overview k x,
   mem_metricTable gainOf figure_group_cols overview k x⟩

theorem insertLe_perm {α : Type} (le : α → α → Bool) (a : α) (l : List α) :
    List.Perm (insertLe le a l) (a :: l) := by
  induction l with
  | nil => exact List.Perm.refl _
  | cons b l ih =>
    by_cases h : le a b = true
    · simp only [insertLe, if_pos h]
      exact List.Perm.refl _
    · simp only [insertLe, if_neg h]
      exact (ih.cons b).trans (List.Perm.swap a b l)

theorem insertionSort_perm {α : Type} (le : α → α → Bool) (l : List α) :
    List.Perm (insertionSort le l) l := by
  induction l with
  | nil => exact List.Perm.refl _
  | cons a l ih =>
    exact (insertLe_perm le a (insertionSort le l)).trans (ih.cons a)

theorem insertLe_sorted {α : Type} (le : α → α → Bool)
    (hTrans : ∀ a b c, le a b = true → le b c = true → le a c = true)
    (hTotal : ∀ a b, le a b = true ∨ le b a = true)
    (a : α) (l : List α) (hl : List.Pairwise (fun x y => le x y = true) l) :
    List.Pairwise (fun x y => le x y = true) (insertLe le a l) := by
  induction l with
  | nil => simp [insertLe]
  | cons b l ih =>
    rcases List.pairwise_cons.mp hl with ⟨hb, hl2⟩
    by_cases h : le a b = true
    · simp only [insertLe, if_pos h]
      refine List.pairwise_cons.mpr ⟨?_, hl⟩
      intro x hx
      rcases List.mem_cons.mp hx with rfl | hx2
      · exact h
      · exact hTrans a b x h (hb x hx2)
    · simp only [insertLe, if_neg h]
      have hba : le b a = true := by
        rcases hTotal a b with h1 | h1
        · exact absurd h1 h
        · exact h1
      refine List.pairwise_cons.mpr ⟨?_, ih hl2⟩
      intro x hx
      have hx2 : x ∈ a :: l := (insertLe_perm le a l).mem_iff.mp hx
      rcases List.mem_cons.mp hx2 with rfl | hx3
      · exact hba
      · exact hb x hx3

theorem insertionSort_sorted {α : Type} (le : α → α → Bool)
    (hTrans : ∀ a b c, le a b = true → le b c = true → le a c = true)
    (hTotal : ∀ a b, le a b = true ∨ le b a = true) (l : List α) :
    List.Pairwise (fun x y => le x y = true) (insertionSort le l) := by
  induction l with
  | nil => simp [insertionSort]
  | cons a l ih => exact insertLe_sorted le hTrans hTotal a _ ih

theorem leOpt_trans (a b c : Option ℚ)
    (h1 : leOpt a b = true) (h2 : leOpt b c = true) : leOpt a c = true := by
  rcases a with _ | x <;> rcases b with _ | y <;> rcases c with _ | z <;>
    simp_all [leOpt]
  exact le_trans h1 h2

theorem leOpt_total (a b : Option ℚ) : leOpt a b = true ∨ leOpt b a = true := by
  rcases a with _ | x <;> rcases b with _ | y <;> simp_all [leOpt]
  exact le_total x y

/-- Claim C5: for every treatment and every selection of variables and
calibration labels, the four pivot tables `prepare_metrics_by_treatment`
returns (NRMSE, MPE, R², Gain) all share exactly the same row-label order
and the same column-label order; the row order is a permutation of the
rounded NRMSE pivot's variables sorted by ascending row mean (mean of the
rounded NRMSE across calibration labels), and the column order a
permutation of its labels sorted by ascending column mean (across
variables). -/
theorem prepare_metrics_by_treatment_ordering
    (nrmse_data mpe_data r2_data gain_data : List MetricRow)
    (treatment : Str) (selVars selLabels : List Str) :
    let out := prepare_metrics_by_treatment nrmse_data mpe_data r2_data gain_data
      treatment selVars selLabels
    let pr := roundTable (pivotOf (filteredMetric nrmse_data treatment selVars selLabels))
    (out.1.rowLabels = out.2.1.rowLabels ∧ out.1.rowLabels = out.2.2.1.rowLabels ∧
     out.1.rowLabels = out.2.2.2.rowLabels ∧
     out.1.colLabels = out.2.1.colLabels ∧ out.1.colLabels = out.2.2.1.colLabels ∧
     out.1.colLabels = out.2.2.2.colLabels) ∧
    (∃ pairs, List.Perm pairs (rowMeans pr) ∧
       List.Pairwise (fun p q => leOpt p.2 q.2 = true) pairs ∧
       out.1.rowLabels = pairs.map Prod.fst) ∧
    (∃ pairs, List.Perm pairs (colMeans pr) ∧
       List.Pairwise (fun p q => leOpt p.2 q.2 = true) pairs ∧
       out.1.colLabels = pairs.map Prod.fst) := by
  refine ⟨⟨rfl, rfl, rfl, rfl, rfl, rfl⟩, ?_, ?_⟩
  · exact ⟨insertionSort (fun a b => leOpt a.2 b.2)
      (rowMeans (roundTable (pivotOf (filteredMetric nrmse_data treatment selVars selLabels)))),
      insertionSort_perm _ _,
      insertionSort_sorted _
        (fun (a b c : Str × Option ℚ) h1 h2 => leOpt_trans a.2 b.2 c.2 h1 h2)
        (fun (a b : Str × Option ℚ) => leOpt_total a.2 b.2) _, rfl⟩
  · exact ⟨insertionSort (fun a b => leOpt a.2 b.2)
      (colMeans (roundTable (pivotOf (filteredMetric nrmse_data treatment selVars selLabels)))),
      insertionSort_perm _ _,
      insertionSort_sorted _
        (fun (a b c : Str × Option ℚ) h1 h2 => leOpt_trans a.2 b.2 c.2 h1 h2)
        (fun (a b : Str × Option ℚ) => leOpt_total a.2 b.2) _, rfl⟩

theorem perCodeRows_fields (overviewOf : Str → List Str)
    (configOf : Str → Str → List Str) (tdic : Str → Option Str)
    (vmap : Str → Option Str) (code : Str) (rs : List ProcessedRow)
    (h : perCodeRows overviewOf configOf tdic vmap code = some rs) :
    ∀ row ∈ rs,
      row.calibrationCode = code ∧
      row.shortLabel = joinField (configOf code (str "short_label")) ∧
      row.longLabel = joinField (configOf code (str "long_label")) ∧
      row.calibrationMethod = joinField (configOf code (str "calibration_method")) ∧
      row.valueMeasured.isSome = true := by
  unfold perCodeRows at h
  cases hex : extract_simulation_data (overviewOf code) with
  | none => rw [hex] at h; cases h
  | some recs =>
    rw [hex] at h
    simp only [Option.map, Option.some.injEq] at h
    subst h
    intro row hrow
    rcases List.mem_map.mp hrow with ⟨r, hr, rfl⟩
    refine ⟨rfl, rfl, rfl, rfl, ?_⟩
    exact (List.mem_filter.mp hr).2

theorem load_and_process_overview_mem (overviewOf : Str → List Str)
    (configOf : Str → Str → List Str) (tdic : Str → Option Str)
    (vmap : Str → Option Str) :
    ∀ (codes : List Str) (rows : List ProcessedRow),
      load_and_process_overview codes overviewOf configOf tdic vmap = some rows →
      ∀ row ∈ rows, ∃ code ∈ codes, ∃ rs,
        perCodeRows overviewOf configOf tdic vmap code = some rs ∧ row ∈ rs := by
  intro codes
  induction codes with
  | nil =>
    intro rows h row hrow
    simp only [load_and_process_overview] at h
    cases h
    cases hrow
  | cons code rest ih =>
    intro rows h row hrow
    simp only [load_and_process_overview] at h
    cases hpc : perCodeRows overviewOf configOf tdic vmap code with
    | none => rw [hpc] at h; cases h
    | some rs =>
      rw [hpc] at h
      cases hrec : load_and_process_overview rest overviewOf configOf tdic vmap with
      | none => rw [hrec] at h; cases h
      | some more =>
        rw [hrec] at h
        simp only [Option.map, Option.some.injEq] at h
        subst h
        rcases List.mem_append.mp hrow with h1 | h2
        · exact ⟨code, List.mem_cons_self code rest, rs, hpc, h1⟩
        · rcases ih more hrec row h2 with ⟨c2, hc2, rs2, hrs2, hmem2⟩
          exact ⟨c2, List.mem_cons.mpr (Or.inr hc2), rs2, hrs2, hmem2⟩

/-- Claim C6: every row `load_and_process_overview` returns is tagged with
the calibration code of the subfolder whose `OVERVIEW.OUT` it came from and
with the short label, long label and calibration method read from that
subfolder's `config.yaml`; an absent or empty YAML field yields the empty
string (`joinField [] = []`). -/
theorem load_and_process_overview_tags (codes : List Str)
    (overviewOf : Str → List Str) (configOf : Str → Str → List Str)
    (tdic : Str → Option Str) (vmap : Str → Option Str)
    (rows : List ProcessedRow)
    (h : load_and_process_overview codes overviewOf configOf tdic vmap = some rows) :
    (∀ row ∈ rows, ∃ code ∈ codes, ∃ rs,
      perCodeRows overviewOf configOf tdic vmap code = some rs ∧ row ∈ rs ∧
      row.calibrationCode = code ∧
      row.shortLabel = joinField (configOf code (str "short_label")) ∧
      row.longLabel = joinField (configOf code (str "long_label")) ∧
      row.calibrationMethod = joinField (configOf code (str "calibration_method"))) ∧
    joinField [] = [] := by
  refine ⟨?_, rfl⟩
  intro row hrow
  rcases load_and_process_overview_mem overviewOf configOf tdic vmap codes rows h
    row hrow with ⟨code, hcode, rs, hrs, hmem⟩
  obtain ⟨h1, h2, h3, h4, _⟩ := perCodeRows_fields overviewOf configOf tdic vmap
    code rs hrs row hmem
  exact ⟨code, hcode, rs, hrs, hmem, h1, h2, h3, h4⟩

/-- Witness for C6: on a concrete one-code environment the pipeline
produces exactly one row and the theorem's tagging conclusion holds for
it. -/
theorem load_and_process_overview_tags_witness :
    ∃ rows, load_and_process_overview [str "BM-ts"] (fun _ => sampleBlockLines)
        sampleConfig sampleTdic sampleVmap = some rows ∧
      rows.length = 1 ∧
      ((∀ row ∈ rows, ∃ code ∈ [str "BM-ts"], ∃ rs,
        perCodeRows (fun _ => sampleBlockLines) sampleConfig sampleTdic sampleVmap
          code = some rs ∧ row ∈ rs ∧
        row.calibrationCode = code ∧
        row.shortLabel = joinField (sampleConfig code (str "short_label")) ∧
        row.longLabel = joinField (sampleConfig code (str "long_label")) ∧
        row.calibrationMethod = joinField (sampleConfig code (str "calibration_method"))) ∧
      joinField [] = []) :=
  ⟨_, rfl, by decide,
   load_and_process_overview_tags [str "BM-ts"] (fun _ => sampleBlockLines)
     sampleConfig sampleTdic sampleVmap _ rfl⟩

/-- Claim C7: every row of the DataFrame `load_and_process_overview`
returns has a non-missing measured value, and any token beginning with
`-99` is turned into the empty string by `extract_simulation_data` and then
coerced to missing by the numeric conversion, so no `-99` sentinel
measurement ever reaches the metric computation. -/
theorem load_and_process_overview_no_sentinel (codes : List Str)
    (overviewOf : Str → List Str) (configOf : Str → Str → List Str)
    (tdic : Str → Option Str) (vmap : Str → Option Str)
    (rows : List ProcessedRow)
    (h : load_and_process_overview codes overviewOf configOf tdic vmap = some rows) :
    (∀ row ∈ rows, row.valueMeasured.isSome = true) ∧
    (∀ s : Str, pyStartsWith s (str "-99") = true →
      pyToNumeric (sentinel99 s) = none) := by
  constructor
  · intro row hrow
    rcases load_and_process_overview_mem overviewOf configOf tdic vmap codes rows h
      row hrow with ⟨code, _, rs, hrs, hmem⟩
    exact (perCodeRows_fields overviewOf configOf tdic vmap code rs hrs row hmem).2.2.2.2
  · intro s hs
    simp only [sentinel99, if_pos hs]
    decide

/-- Witness for C7: the sample file has a `-99` measured token; the
resulting frame nevertheless contains only rows with present measured
values. -/
theorem load_and_process_overview_no_sentinel_witness :
    ∃ rows, load_and_process_overview [str "BM-ts"] (fun _ => sampleBlockLines)
        sampleConfig sampleTdic sampleVmap = some rows ∧
      ((∀ row ∈ rows, row.valueMeasured.isSome = true) ∧
       (∀ s : Str, pyStartsWith s (str "-99") = true →
         pyToNumeric (sentinel99 s) = none)) ∧
      pyStartsWith (str "-99") (str "-99") = true :=
  ⟨_, rfl,
   load_and_process_overview_no_sentinel [str "BM-ts"] (fun _ => sampleBlockLines)
     sampleConfig sampleTdic sampleVmap _ rfl, by decide⟩

theorem optTraverse_forall2 {α β : Type} (f : α → Option β) :
    ∀ (l : List α) (out : List β), optTraverse (l.map f) = some out →
      List.Forall₂ (fun a b2 => f a = some b2) l out := by
  intro l
  induction l with
  | nil =>
    intro out h
    cases h
    exact List.Forall₂.nil
  | cons a l ih =>
    intro out h
    simp only [List.map] at h
    cases hf : f a with
    | none => rw [hf] at h; cases h
    | some b2 =>
      rw [hf] at h
      simp only [optTraverse] at h
      cases hrec : optTraverse (l.map f) with
      | none => rw [hrec] at h; cases h
      | some l2 =>
        rw [hrec] at h
        simp only [Option.map, Option.some.injEq] at h
        subst h
        exact List.Forall₂.cons hf (ih l2 hrec)

theorem forall2_mem_right {α β : Type} {R : α → β → Prop} :
    ∀ {l1 : List α} {l2 : List β}, List.Forall₂ R l1 l2 → ∀ b ∈ l2, ∃ a ∈ l1, R a b := by
  intro l1 l2 hf
  induction hf with
  | nil => intro b hb; cases hb
  | cons hR hrest ih =>
    intro b hb
    rcases List.mem_cons.mp hb with rfl | hb2
    · exact ⟨_, List.mem_cons_self _ _, hR⟩
    · rcases ih b hb2 with ⟨a, ha, hab⟩
      exact ⟨a, List.mem_cons.mpr (Or.inr ha), hab⟩

theorem fillDap_spec (ref : Option Int) (r r2 : TimedRow)
    (h : fillDap ref r = some r2) :
    r2.base = r.base ∧ r2.das = r.das ∧
    (∀ v, r.dap = some v → r2.dap = some v) ∧
    (r.dap = none → ∀ d, dateNum r.base.date = some d →
      r2.dap = ref.map (fun rd => d - rd)) := by
  unfold fillDap at h
  cases hd : dateNum r.base.date with
  | none => rw [hd] at h; cases h
  | some d0 =>
    rw [hd] at h
    simp only [Option.map, Option.some.injEq] at h
    cases hdap : r.dap with
    | some v =>
      rw [hdap] at h
      dsimp only at h
      subst h
      refine ⟨rfl, rfl, ?_, fun hnone => Option.noConfusion hnone⟩
      intro v2 hv2
      injection hv2 with h2
      rw [← h2]
      exact hdap
    | none =>
      rw [hdap] at h
      dsimp only at h
      subst h
      refine ⟨rfl, rfl, fun v2 hv2 => Option.noConfusion hv2, ?_⟩
      intro _ d hdd
      injection hdd with hdd2
      subst hdd2
      rfl

theorem mergeTiming_base (rs : List MergedRow) (timing : List PGRow) :
    ∀ r2 ∈ mergeTiming rs timing, r2.base ∈ rs := by
  intro r2 hr2
  rcases List.mem_map.mp hr2 with ⟨r, hr, heq⟩
  rw [← heq]
  exact hr

theorem mem_filterTreatment (t : Str) (rs : List MergedRow) :
    ∀ r ∈ filterTreatment t rs, r ∈ rs ∧ ∃ m, r.meta = some m ∧ m.treatment = t := by
  intro r hr
  obtain ⟨h1, h2⟩ := List.mem_filter.mp hr
  refine ⟨h1, ?_⟩
  rcases hm : r.meta with _ | m
  · rw [hm] at h2; cases h2
  · rw [hm] at h2
    exact ⟨m, rfl, of_decide_eq_true h2⟩

theorem mergeMapping_meta (whts : List WhtRow) (mapping : List MapRow) :
    ∀ r ∈ mergeMapping whts mapping, ∀ m, r.meta = some m →
      m ∈ mapping ∧ m.experimentId = r.experimentId ∧ m.treatmentNumber = r.trno := by
  intro r hr m hm
  unfold mergeMapping at hr
  rcases List.mem_flatMap.mp hr with ⟨w, hw, hrw⟩
  cases hms : mapping.filter (fun m2 => decide (m2.experimentId = w.experimentId) &&
      decide (m2.treatmentNumber = w.trno)) with
  | nil =>
    rw [hms] at hrw
    rcases List.mem_singleton.mp hrw with rfl
    cases hm
  | cons m0 rest =>
    rw [hms] at hrw
    rcases List.mem_map.mp hrw with ⟨m1, hm1, heq⟩
    rw [← heq] at hm
    injection hm with hm2
    subst hm2
    rw [← heq]
    have hmem : m1 ∈ mapping.filter (fun m2 => decide (m2.experimentId = w.experimentId) &&
        decide (m2.treatmentNumber = w.trno)) := by rw [hms]; exact hm1
    obtain ⟨hmap, hkeys⟩ := List.mem_filter.mp hmem
    obtain ⟨hk1, hk2⟩ := Bool.and_eq_true _ _ |>.mp hkeys
    exact ⟨hmap, of_decide_eq_true hk1, of_decide_eq_true hk2⟩

/-- Claim C3: `load_prepare_time_series_data` joins each WHT measurement
row to the simulated-run metadata by experiment ID together with treatment
number (the WHT row's `TRNO` equal to the run's `treatment_number`); after
the timing enrichment, every measurement row whose DAP is still missing is
assigned the whole-day difference between that row's date and the earliest
simulated `DAP = 0` date, and every row whose DAP was already present keeps
it unchanged.  `out` is the final frame, related row-by-row (`Forall₂`) to
the pre-fill frame. -/
theorem load_prepare_time_series_enrich_join_and_dap
    (plantgro : List PGRow) (whts : List WhtRow) (mapping : List MapRow)
    (treatment : Str) (out : List TimedRow)
    (h : load_prepare_time_series_enrich plantgro whts mapping treatment = some out) :
    (∀ r ∈ out, ∃ m ∈ mapping, r.base.meta = some m ∧
       m.experimentId = r.base.experimentId ∧ m.treatmentNumber = r.base.trno ∧
       m.treatment = treatment) ∧
    List.Forall₂ (fun r r2 => r2.base = r.base ∧ r2.das = r.das ∧
        (∀ v, r.dap = some v → r2.dap = some v) ∧
        (r.dap = none → ∀ d, dateNum r.base.date = some d →
          r2.dap = (dap0Ref (plantgro.filter
            (fun p => decide (p.treatment = treatment)))).map (fun rd => d - rd)))
      (mergeTiming (filterTreatment treatment (mergeMapping whts mapping))
        (dropDupTiming (plantgro.filter (fun p => decide (p.treatment = treatment)))))
      out := by
  unfold load_prepare_time_series_enrich at h
  have hfa := optTraverse_forall2
    (fillDap (dap0Ref (plantgro.filter (fun p => decide (p.treatment = treatment)))))
    (mergeTiming (filterTreatment treatment (mergeMapping whts mapping))
      (dropDupTiming (plantgro.filter (fun p => decide (p.treatment = treatment)))))
    out h
  constructor
  · intro r2 hr2
    obtain ⟨r, hrmem, hfill⟩ := forall2_mem_right hfa r2 hr2
    have hbase := (fillDap_spec _ _ _ hfill).1
    have hbmem := mergeTiming_base _ _ r hrmem
    obtain ⟨hmm, m, hmeta, htreat⟩ := mem_filterTreatment treatment _ r.base hbmem
    obtain ⟨hmap, hk1, hk2⟩ := mergeMapping_meta whts mapping r.base hmm m hmeta
    exact ⟨m, hmap, by rw [hbase]; exact hmeta, by rw [hbase]; exact hk1,
      by rw [hbase]; exact hk2, htreat⟩
  · refine List.Forall₂.imp ?_ hfa
    intro r r2 hfill
    exact fillDap_spec _ _ _ hfill

/-- Witness for C3: on the concrete sample data the pipeline returns two
rows — one whose DAP came from the simulated timing and one filled by date
arithmetic — and the theorem's conclusions hold for them. -/
theorem load_prepare_time_series_enrich_join_and_dap_witness :
    ∃ out, load_prepare_time_series_enrich samplePG sampleWht sampleMapping
        (str "WW-23") = some out ∧
      out.map (fun r => r.dap) = [some 10, some 15] ∧
      ((∀ r ∈ out, ∃ m ∈ sampleMapping, r.base.meta = some m ∧
         m.experimentId = r.base.experimentId ∧ m.treatmentNumber = r.base.trno ∧
         m.treatment = str "WW-23") ∧
       List.Forall₂ (fun r r2 => r2.base = r.base ∧ r2.das = r.das ∧
          (∀ v, r.dap = some v → r2.dap = some v) ∧
          (r.dap = none → ∀ d, dateNum r.base.date = some d →
            r2.dap = (dap0Ref (samplePG.filter
              (fun p => decide (p.treatment = str "WW-23")))).map (fun rd => d - rd)))
        (mergeTiming (filterTreatment (str "WW-23")
            (mergeMapping sampleWht sampleMapping))
          (dropDupTiming (samplePG.filter
            (fun p => decide (p.treatment = str "WW-23")))))
        out) :=
  ⟨_, rfl, by decide,
   load_prepare_time_series_enrich_join_and_dap samplePG sampleWht sampleMapping
     (str "WW-23") _ rfl⟩
